import Mathlib

/-!
# Game of Life backend (`app.go`)

A shallow embedding of the Go program and a verification of its specification.

Modelling conventions.

* Go `int` is a 64-bit two's-complement integer: values are `Int`, and `+`
  wraps through `wrapInt`.  `%` is Go's truncating remainder (`Int.tmod`) and
  panics on a zero divisor.
* A run-time panic is an `Except.error`; an operation that completes is an
  `Except.ok`.
* A `[][]bool` value is a reference.  Every `make`/`nextGeneration` result is a
  fresh object; the contents of all objects allocated so far are kept in
  `App.heap`, and a grid value (`App.grid`, `GameState.Grid`) is an address into
  it.  Rows are never shared between two grids in this program, so the heap is
  kept at the granularity of a whole grid.
* A `chan struct{}` value is `none` (nil) or the index of a channel in
  `App.chans`, which records for every channel made so far whether it has been
  closed.
* Each exported method runs with `a.mu` held, so it is one atomic transition on
  the state.
* A goroutine started by `StartAutoPlay` is a `Task`; its atomic actions
  (`time.NewTicker`, entry into `select`, the choice of a case, the locked tick
  body) interleave with the method calls in `Sys.step`.  Time is not modelled:
  the ticker may deliver at any moment.
* `time.Now().UnixNano()` is a parameter of `randomGrid` and `Randomize`.
-/

namespace GameOfLife

/-! ## Go primitives -/

/-- Run-time panics the program can raise. -/
inductive Panic where
  | indexOutOfRange
  | divideByZero
  | makeNegativeLen
  | closeNilChannel
  | closeClosedChannel
  | nonPositiveInterval
  deriving DecidableEq, Repr

deriving instance DecidableEq for Except

/-- Contents of a `[][]bool`: a list of rows. -/
abbrev Grid := List (List Bool)

/-- Largest value of a Go `int` (64 bit). -/
def maxInt : Int := 9223372036854775807

/-- Smallest value of a Go `int` (64 bit). -/
def minInt : Int := -9223372036854775808

/-- Reduction of a mathematical integer to the 64-bit two's-complement range. -/
def wrapInt (z : Int) : Int :=
  (z + 9223372036854775808) % 18446744073709551616 - 9223372036854775808

/-- Go `a + b` on `int`. -/
def addInt (a b : Int) : Int := wrapInt (a + b)

/-- Go `a * b` on `int64`. -/
def mulInt (a b : Int) : Int := wrapInt (a * b)

/-- Go `a & b` on `int64`: bitwise and of the two 64-bit two's-complement
patterns, read back as a signed value. -/
def andInt (a b : Int) : Int :=
  wrapInt (((a % 18446744073709551616).toNat &&& (b % 18446744073709551616).toNat : Nat) : Int)

/-- Go `a % b` on `int`: truncating remainder, panics when `b` is zero. -/
def remInt (a b : Int) : Except Panic Int :=
  if b = 0 then .error .divideByZero else .ok (Int.tmod a b)

/-- Go `s[i]`: panics unless `0 <= i < len(s)`. -/
def index {α : Type} (s : List α) (i : Int) : Except Panic α :=
  if i < 0 then .error .indexOutOfRange
  else
    match s[i.toNat]? with
    | some v => .ok v
    | none => .error .indexOutOfRange

/-- Length check of Go `make([]T, n)`: panics on a negative length. -/
def makeLen (n : Int) : Except Panic Nat :=
  if n < 0 then .error .makeNegativeLen else .ok n.toNat

/-- Go `close(c)` against the table of channels: panics on a nil channel and on
a channel that is already closed. -/
def closeChan (chans : List Bool) (c : Option Nat) : Except Panic (List Bool) :=
  match c with
  | none => .error .closeNilChannel
  | some i =>
    match chans[i]? with
    | some false => .ok (chans.set i true)
    | some true => .error .closeClosedChannel
    | none => .error .closeNilChannel

/-! ## Grid engine -/

/-- Source: `makeGrid(w, h)`. -/
def makeGrid (w h : Int) : Except Panic Grid := do
  let rows ← makeLen h
  (List.range rows).mapM fun (_ : Nat) => do
    let cols ← makeLen w
    pure (List.replicate cols false)

/-- Body of the inner loop of `countNeighbors` for one `(dx, dy)`. -/
def neighborStep (grid : Grid) (x y w h : Int) (dy : Int) (count : Int) (dx : Int) :
    Except Panic Int :=
  if dx = 0 ∧ dy = 0 then pure count
  else do
    let nx ← remInt (addInt (addInt x dx) w) w
    let ny ← remInt (addInt (addInt y dy) h) h
    let row ← index grid ny
    let c ← index row nx
    if c then pure (addInt count 1) else pure count

/-- Source: `countNeighbors(grid, x, y, w, h)`; `dy` is the outer loop and `dx`
the inner one, both running over -1, 0, 1. -/
def countNeighbors (grid : Grid) (x y w h : Int) : Except Panic Int :=
  [-1, 0, 1].foldlM
    (fun count dy => [-1, 0, 1].foldlM (neighborStep grid x y w h dy) count) 0

/-- Source: `nextGeneration(grid, w, h)`. -/
def nextGeneration (grid : Grid) (w h : Int) : Except Panic Grid := do
  let rows ← makeLen h
  (List.range rows).mapM fun (y : Nat) => do
    let cols ← makeLen w
    (List.range cols).mapM fun (x : Nat) => do
      let neighbors ← countNeighbors grid (x : Int) (y : Int) w h
      let row ← index grid (y : Int)
      let c ← index row (x : Int)
      if c then pure (neighbors == 2 || neighbors == 3)
      else pure (neighbors == 3)

/-! ## Simulation controller -/

/-- Notifications handed to the UI runtime (`wailsruntime.EventsEmit`); their
delivery is outside the program, emitting one is recorded in `App.events`. -/
inductive Event where
  | cellUpdated (x y : Int) (alive : Bool)
  | gameTick (grid : Nat) (generation : Int) (playing : Bool)
  deriving DecidableEq, Repr

/-- Source: `GameState`; `Grid` is the slice value, an address into the heap. -/
structure GameState where
  Grid : Nat
  Generation : Int
  Playing : Bool
  deriving DecidableEq, Repr

/-- Source: `App` (fields `grid`, `width`, `height`, `gen`, `playing`,
`stopChan`), together with the memory it refers to: the grids allocated so far
(`heap`), the channels made so far (`chans`) and the notifications emitted so
far (`events`). -/
structure App where
  heap : List Grid
  chans : List Bool
  events : List Event
  grid : Nat
  width : Int
  height : Int
  gen : Int
  playing : Bool
  stopChan : Option Nat
  deriving DecidableEq, Repr

/-- Contents of the grid stored at address `p`. -/
def App.deref (a : App) (p : Nat) : Grid := a.heap.getD p []

/-- Contents of `a.grid`. -/
def App.cells (a : App) : Grid := a.deref a.grid

/-- Allocation of a fresh grid object, assigned to `a.grid`. -/
def App.assignNew (a : App) (g : Grid) : App :=
  { a with heap := a.heap ++ [g], grid := a.heap.length }

/-- The literal `GameState{Grid: a.grid, Generation: a.gen, Playing: a.playing}`. -/
def App.snapshot (a : App) : GameState :=
  { Grid := a.grid, Generation := a.gen, Playing := a.playing }

/-- Source: `NewApp()`. -/
def NewApp : Except Panic App := do
  let g ← makeGrid 40 30
  pure { heap := [g], chans := [], events := [], grid := 0, width := 40, height := 30,
         gen := 0, playing := false, stopChan := none }

/-- Source: `App.GetState`. -/
def App.GetState (a : App) : Except Panic (App × GameState) :=
  pure (a, a.snapshot)

/-- The statement `a.grid[y][x] = v`, writing in place into the object `a.grid`
refers to. -/
def App.writeCell (a : App) (x y : Int) (v : Bool) : Except Panic App := do
  let row ← index a.cells y
  let _ ← index row x
  pure { a with heap := a.heap.set a.grid (a.cells.set y.toNat (row.set x.toNat v)) }

/-- Source: `App.ToggleCell`. -/
def App.ToggleCell (a : App) (x y : Int) : Except Panic (App × GameState) := do
  let a ←
    if x ≥ 0 ∧ x < a.width ∧ y ≥ 0 ∧ y < a.height then do
      let row ← index a.cells y
      let c ← index row x
      a.writeCell x y (!c)
    else pure a
  pure (a, a.snapshot)

/-- Source: `App.SetCell`. -/
def App.SetCell (a : App) (x y : Int) (alive : Bool) : Except Panic App := do
  let a ←
    if x ≥ 0 ∧ x < a.width ∧ y ≥ 0 ∧ y < a.height then a.writeCell x y alive
    else pure a
  pure { a with events := a.events ++ [Event.cellUpdated x y alive] }

/-- Source: `App.Step`. -/
def App.Step (a : App) : Except Panic (App × GameState) := do
  let next ← nextGeneration a.cells a.width a.height
  let a := a.assignNew next
  let a := { a with gen := addInt a.gen 1 }
  pure (a, a.snapshot)

/-- The guarded cancellation shared by `StopAutoPlay`, `Clear` and `Randomize`:
`if a.playing { close(a.stopChan); a.playing = false }`. -/
def App.cancel (a : App) : Except Panic App :=
  if a.playing then do
    let chans ← closeChan a.chans a.stopChan
    pure { a with chans := chans, playing := false }
  else pure a

/-- Source: `App.StopAutoPlay`. -/
def App.StopAutoPlay (a : App) : Except Panic (App × GameState) := do
  let a ← a.cancel
  pure (a, a.snapshot)

/-- Source: `App.Clear`. -/
def App.Clear (a : App) : Except Panic (App × GameState) := do
  let a ← a.cancel
  let g ← makeGrid a.width a.height
  let a := a.assignNew g
  let a := { a with gen := 0 }
  pure (a, a.snapshot)

/-- The assignment `seed = (seed*6364136223846793005 + 1442695040888963407) &
0x7fffffffffffffff` of `randomGrid`, on `int64`. -/
def nextSeed (seed : Int) : Int :=
  andInt (addInt (mulInt seed 6364136223846793005) 1442695040888963407) 9223372036854775807

/-- Inner loop of `randomGrid`: fills the `n` cells of one row from left to
right and returns the row with the seed after it.  `seed%3` has a constant
non-zero divisor, so it is the truncating remainder without a panic. -/
def randomRow : Nat → Int → List Bool × Int
  | 0, seed => ([], seed)
  | n + 1, seed =>
    let seed := nextSeed seed
    let rest := randomRow n seed
    ((Int.tmod seed 3 == 0) :: rest.1, rest.2)

/-- Outer loop of `randomGrid`: makes and fills `n` rows from top to bottom. -/
def randomRows (w : Int) : Nat → Int → Except Panic Grid
  | 0, _ => pure []
  | n + 1, seed => do
    let cols ← makeLen w
    let row := randomRow cols seed
    let rest ← randomRows w n row.2
    pure (row.1 :: rest)

/-- Source: `randomGrid(w, h)`; `seed` is the value `time.Now().UnixNano()`
returns. -/
def randomGrid (seed : Int) (w h : Int) : Except Panic Grid := do
  let rows ← makeLen h
  randomRows w rows seed

/-- Source: `App.Randomize`; `seed` is the clock value read by `randomGrid`. -/
def App.Randomize (a : App) (seed : Int) : Except Panic (App × GameState) := do
  let a ← a.cancel
  let g ← randomGrid seed a.width a.height
  let a := a.assignNew g
  let a := { a with gen := 0 }
  pure (a, a.snapshot)

/-- Source: `App.StartAutoPlay` up to the `go` statement: the locked section
and the clamp of `intervalMs`.  The second component is the interval handed to
the goroutine, `none` when the method returns without starting one.
`make(chan struct{})` yields the next unused channel, open. -/
def App.StartAutoPlay (a : App) (intervalMs : Int) : Except Panic (App × Option Int) :=
  if a.playing then pure (a, none)
  else
    let a := { a with playing := true, stopChan := some a.chans.length,
                      chans := a.chans ++ [false] }
    let intervalMs := if intervalMs < 50 then 50 else intervalMs
    pure (a, some intervalMs)

/-- The constant `time.Millisecond`, in nanoseconds. -/
def millisecond : Int := 1000000

/-- The argument `time.Duration(intervalMs) * time.Millisecond` of
`time.NewTicker`: an `int64` number of nanoseconds. -/
def tickerDuration (intervalMs : Int) : Int := mulInt intervalMs millisecond

/-- Go `time.NewTicker(d)`: panics unless `d` is greater than zero; the result
is the period of the ticker. -/
def newTicker (d : Int) : Except Panic Int :=
  if d ≤ 0 then .error .nonPositiveInterval else .ok d

/-- Source: the `case <-ticker.C` body of the goroutine of `StartAutoPlay`: the
locked section followed by the emission of the `game-tick` event. -/
def App.tick (a : App) : Except Panic App := do
  let next ← nextGeneration a.cells a.width a.height
  let a := a.assignNew next
  let a := { a with gen := addInt a.gen 1 }
  let state := a.snapshot
  pure { a with events := a.events ++ [Event.gameTick state.Grid state.Generation state.Playing] }

/-- Control state of one goroutine started by `StartAutoPlay`. -/
inductive Task where
  /-- Created by the `go` statement, `time.NewTicker` not yet called. -/
  | spawned (intervalMs : Int)
  /-- At the head of the `for` loop, before `select` evaluates `a.stopChan`. -/
  | atLoop (period : Int)
  /-- Waiting in `select` on the channel `a.stopChan` had on entry and on
  `ticker.C`. -/
  | selecting (period : Int) (stop : Option Nat)
  /-- The case `<-ticker.C` has been chosen; `a.mu.Lock()` comes next. -/
  | ticking (period : Int)
  /-- The case `<-a.stopChan` has been chosen: the goroutine has returned. -/
  | returned
  deriving DecidableEq, Repr

/-- The controller together with the goroutines `StartAutoPlay` has started. -/
structure Sys where
  app : App
  tasks : List Task
  deriving DecidableEq, Repr

/-- Source: `App.StartAutoPlay`, the `go` statement included. -/
def Sys.StartAutoPlay (s : Sys) (intervalMs : Int) : Except Panic Sys := do
  let r ← s.app.StartAutoPlay intervalMs
  match r.2 with
  | some ms => pure { app := r.1, tasks := s.tasks ++ [Task.spawned ms] }
  | none => pure { app := r.1, tasks := s.tasks }

/-- The atomic actions of one goroutine. -/
inductive TaskOp where
  /-- `ticker := time.NewTicker(...)`. -/
  | launch
  /-- Entry into `select`: the channel expression `a.stopChan` is evaluated. -/
  | enter
  /-- `select` takes the case `<-ticker.C`. -/
  | fire
  /-- `select` takes the case `<-a.stopChan`: the channel is closed. -/
  | stop
  /-- The body of the case `<-ticker.C`. -/
  | tick
  deriving DecidableEq, Repr

/-- One action of goroutine `i`; `none` when the goroutine cannot take it in
the state `s`.  A receive from a nil or an open channel never completes. -/
def Sys.taskStep (s : Sys) (i : Nat) (op : TaskOp) : Option (Except Panic Sys) :=
  match s.tasks[i]?, op with
  | some (Task.spawned ms), TaskOp.launch =>
    some (do
      let d ← newTicker (tickerDuration ms)
      pure { s with tasks := s.tasks.set i (Task.atLoop d) })
  | some (Task.atLoop d), TaskOp.enter =>
    some (pure { s with tasks := s.tasks.set i (Task.selecting d s.app.stopChan) })
  | some (Task.selecting d _), TaskOp.fire =>
    some (pure { s with tasks := s.tasks.set i (Task.ticking d) })
  | some (Task.selecting _ (some c)), TaskOp.stop =>
    if s.app.chans[c]? = some true then
      some (pure { s with tasks := s.tasks.set i Task.returned })
    else none
  | some (Task.ticking d), TaskOp.tick =>
    some (do
      let a ← s.app.tick
      pure { app := a, tasks := s.tasks.set i (Task.atLoop d) })
  | _, _ => none

/-- The calls a client can make and the actions the goroutines can take. -/
inductive Op where
  | getState
  | toggleCell (x y : Int)
  | setCell (x y : Int) (alive : Bool)
  | step
  | startAutoPlay (intervalMs : Int)
  | stopAutoPlay
  | clear
  | randomize (seed : Int)
  | task (i : Nat) (op : TaskOp)
  deriving DecidableEq, Repr

/-- One transition of the system; `none` when the action is not possible. -/
def Sys.step (s : Sys) : Op → Option (Except Panic Sys)
  | Op.getState => some (do let r ← s.app.GetState; pure { s with app := r.1 })
  | Op.toggleCell x y => some (do let r ← s.app.ToggleCell x y; pure { s with app := r.1 })
  | Op.setCell x y alive => some (do let a ← s.app.SetCell x y alive; pure { s with app := a })
  | Op.step => some (do let r ← s.app.Step; pure { s with app := r.1 })
  | Op.startAutoPlay ms => some (s.StartAutoPlay ms)
  | Op.stopAutoPlay => some (do let r ← s.app.StopAutoPlay; pure { s with app := r.1 })
  | Op.clear => some (do let r ← s.app.Clear; pure { s with app := r.1 })
  | Op.randomize seed => some (do let r ← s.app.Randomize seed; pure { s with app := r.1 })
  | Op.task i op => s.taskStep i op

/-- Execution of a sequence of transitions; `none` when one of them is not
possible, a panic ends the execution. -/
def Sys.run (s : Sys) : List Op → Option (Except Panic Sys)
  | [] => some (.ok s)
  | op :: ops =>
    match s.step op with
    | none => none
    | some (.error e) => some (.error e)
    | some (.ok s1) => s1.run ops

/-- The system right after `NewApp()`: no goroutine yet. -/
def Sys.init : Except Panic Sys := do
  let a ← NewApp
  pure { app := a, tasks := [] }

/-! ## Vocabulary of the specification -/

/-- The grid has exactly `h` rows of exactly `w` columns. -/
def Grid.HasShape (g : Grid) (w h : Nat) : Prop :=
  g.length = h ∧ ∀ row ∈ g, row.length = w

/-- Value of the cell in column `x` of row `y` (dead outside the grid). -/
def Grid.alive (g : Grid) (x y : Nat) : Bool := (g.getD y []).getD x false

/-- The eight neighbour offsets `(dx, dy)`: all of -1, 0, 1 squared but `(0, 0)`. -/
def neighborOffsets : Finset (Int × Int) :=
  (({-1, 0, 1} : Finset Int) ×ˢ ({-1, 0, 1} : Finset Int)).erase (0, 0)

/-- Cell reached from `(x, y)` by the offset `d` on the `w` by `h` torus, with
the mathematical (non-negative) remainder. -/
def Grid.neighbor (g : Grid) (w h x y : Nat) (d : Int × Int) : Bool :=
  g.alive (((x : Int) + d.1) % (w : Int)).toNat (((y : Int) + d.2) % (h : Int)).toNat

/-- Number of live cells among the eight toroidal neighbours of `(x, y)`. -/
def Grid.liveNeighbors (g : Grid) (w h x y : Nat) : Nat :=
  (neighborOffsets.filter fun d => g.neighbor w h x y d = true).card

/-- The birth and survival rule for a cell with value `c` and `n` live
neighbours. -/
def rule (c : Bool) (n : Int) : Bool :=
  if c then n == 2 || n == 3 else n == 3

/-- The grid the birth and survival rule assigns to `g`. -/
def ruleGrid (g : Grid) (w h : Nat) : Grid :=
  (List.range h).map fun y => (List.range w).map fun x =>
    rule (g.alive x y) (g.liveNeighbors w h x y)

/-- Bound on a grid dimension, `2^62`: below it `x + dx + w` stays inside the
64-bit range.  The length of a Go slice is limited by the address space and is
far smaller. -/
def dimLimit : Nat := 4611686018427387904

/-- The counter of `countNeighbors` after one neighbour has been inspected. -/
def bump (count : Int) (b : Bool) : Int := if b then addInt count 1 else count

/-- Zero or one, for counting. -/
def b2n (b : Bool) : Nat := if b then 1 else 0

/-- Every cell of the `w` by `h` grid is dead. -/
def Grid.AllDead (g : Grid) (w h : Nat) : Prop :=
  ∀ x y, x < w → y < h → g.alive x y = false

/-- Every Go `int` lies in the 64-bit range. -/
def IsInt (z : Int) : Prop := minInt ≤ z ∧ z ≤ maxInt

/-- The data-model invariant of the controller's grid: `width` and `height` are
at least 1 and below `dimLimit`, and `a.grid` has exactly `height` rows of
exactly `width` columns. -/
def App.GridOk (a : App) : Prop :=
  1 ≤ a.width ∧ a.width < dimLimit ∧ 1 ≤ a.height ∧ a.height < dimLimit ∧
    a.cells.HasShape a.width.toNat a.height.toNat

/-- The playback-session invariant: while `playing` is set, `stopChan` is a
channel that has not been closed. -/
def App.ChanOpen (a : App) : Prop :=
  a.playing = true → ∃ c, a.stopChan = some c ∧ a.chans[c]? = some false

/-- A 3 by 3 grid with exactly the cells (1,0), (1,1), (1,2) alive. -/
def blinkerVertical : Grid :=
  [[false, true, false], [false, true, false], [false, true, false]]

/-- A 3 by 3 grid with exactly the cells (0,1), (1,1), (2,1) alive. -/
def blinkerHorizontal : Grid :=
  [[false, false, false], [true, true, true], [false, false, false]]

/-- A controller whose grid is the 3 by 3 vertical blinker. -/
def blinkerApp : App :=
  { heap := [blinkerVertical], chans := [], events := [], grid := 0, width := 3, height := 3,
    gen := 0, playing := false, stopChan := none }

/-- A 5 by 5 grid with exactly the cells (2,1), (2,2), (2,3) alive. -/
def blinker5Vertical : Grid :=
  [[false, false, false, false, false], [false, false, true, false, false],
   [false, false, true, false, false], [false, false, true, false, false],
   [false, false, false, false, false]]

/-- A 5 by 5 grid with exactly the cells (1,2), (2,2), (3,2) alive. -/
def blinker5Horizontal : Grid :=
  [[false, false, false, false, false], [false, false, false, false, false],
   [false, true, true, true, false], [false, false, false, false, false],
   [false, false, false, false, false]]

/-- A controller whose grid is the 5 by 5 vertical blinker. -/
def blinker5App : App :=
  { heap := [blinker5Vertical], chans := [], events := [], grid := 0, width := 5, height := 5,
    gen := 0, playing := false, stopChan := none }

/-- A controller in the Playing state: generation 7, an open stop channel. -/
def playingApp : App :=
  { heap := [blinkerVertical], chans := [false], events := [], grid := 0, width := 3,
    height := 3, gen := 7, playing := true, stopChan := some 0 }

/-- The state after the in-place write `a.grid[y][x] = v` with in-range indices. -/
def App.poke (a : App) (x y : Nat) (v : Bool) : App :=
  { a with heap := a.heap.set a.grid (a.cells.set y ((a.cells.getD y []).set x v)) }

/-- Column (or row) reached by the offset -1 on a torus of size `n`. -/
def prevCoord (n x : Nat) : Nat := if x = 0 then n - 1 else x - 1

/-- Column (or row) reached by the offset +1 on a torus of size `n`. -/
def nextCoord (n x : Nat) : Nat := if x + 1 = n then 0 else x + 1

/-- The cell `(x0, y0)` is the only live cell of the `w` by `h` grid. -/
def Grid.OnlyAlive (g : Grid) (w h x0 y0 : Nat) : Prop :=
  ∀ x y, x < w → y < h → (g.alive x y = true ↔ x = x0 ∧ y = y0)

/-- The live cells of the `w` by `h` grid are exactly the four cells of the
2 by 2 block whose top-left corner is `(x0, y0)`. -/
def Grid.IsBlock (g : Grid) (w h x0 y0 : Nat) : Prop :=
  ∀ x y, x < w → y < h →
    (g.alive x y = true ↔ (x = x0 ∨ x = x0 + 1) ∧ (y = y0 ∨ y = y0 + 1))

/-- An Idle system: the 3 by 3 blinker controller and no goroutine. -/
def idleSys : Sys := { app := blinkerApp, tasks := [] }

/-- The generator of the specification over the mathematical integers:
`s(0) = s0` and `s(k+1) = (s(k)*6364136223846793005 + 1442695040888963407)
mod 2^63`. -/
def lcg (s0 : Int) : Nat → Int
  | 0 => s0
  | k + 1 => (lcg s0 k * 6364136223846793005 + 1442695040888963407) % 9223372036854775808

/-- The toroidal translation of the specification: the grid whose cell
`[y][x]` is `g[(y+b) mod h][(x+a) mod w]`. -/
def shiftGrid (g : Grid) (w h : Nat) (a b : Int) : Grid :=
  (List.range h).map fun (y : Nat) => (List.range w).map fun (x : Nat) =>
    g.alive (((x : Int) + a) % (w : Int)).toNat (((y : Int) + b) % (h : Int)).toNat

/-- The invariant of the controller: the dimensions fixed by `NewApp`, a grid
of 30 rows by 40 columns, and `playing` only with an open stop channel. -/
def App.Inv (a : App) : Prop :=
  a.width = 40 ∧ a.height = 30 ∧ a.cells.HasShape 40 30 ∧ a.ChanOpen

/-- The generation counter the specification assigns after the transition
`op`, starting from the count `n`: `Step` and an autoplay tick add one, `Clear`
and `Randomize` reset to zero, everything else keeps the count. -/
def countStep (n : Nat) : Op → Nat
  | Op.step => n + 1
  | Op.task _ TaskOp.tick => n + 1
  | Op.clear => 0
  | Op.randomize _ => 0
  | _ => n

/-- The number of `Step` calls and autoplay ticks in `ops` since the most
recent `Clear` or `Randomize`, counted on from `n`. -/
def countFrom (n : Nat) : List Op → Nat
  | [] => n
  | op :: ops => countFrom (countStep n op) ops

/-- The transition is a `Clear` or a `Randomize`. -/
def Op.isReset : Op → Bool
  | Op.clear => true
  | Op.randomize _ => true
  | _ => false

/-- The value of `a.gen` after the transition `op`, from the value `g`: the
wrapping increment for `Step` and a tick, zero for `Clear` and `Randomize`. -/
def genStep (g : Int) : Op → Int
  | Op.step => addInt g 1
  | Op.task _ TaskOp.tick => addInt g 1
  | Op.clear => 0
  | Op.randomize _ => 0
  | _ => g

/-- The transition is a call of an exported method, not a goroutine action. -/
def Op.isCall : Op → Bool
  | Op.task _ _ => false
  | _ => true

/-- The transition is a `ToggleCell` or `SetCell` whose coordinates pass the
range guard of the controller `a`. -/
def Op.writesCell (a : App) : Op → Prop
  | Op.toggleCell x y => x ≥ 0 ∧ x < a.width ∧ y ≥ 0 ∧ y < a.height
  | Op.setCell x y _ => x ≥ 0 ∧ x < a.width ∧ y ≥ 0 ∧ y < a.height
  | _ => False

/-- An execution in which autoplay is stopped and started again while the
first goroutine has a tick in flight. -/
def restartTrace : List Op :=
  [Op.startAutoPlay 50, Op.task 0 TaskOp.launch, Op.task 0 TaskOp.enter,
   Op.task 0 TaskOp.fire, Op.stopAutoPlay, Op.startAutoPlay 50, Op.task 0 TaskOp.tick,
   Op.task 0 TaskOp.enter, Op.task 1 TaskOp.launch, Op.task 1 TaskOp.enter,
   Op.task 0 TaskOp.fire, Op.task 0 TaskOp.tick, Op.task 1 TaskOp.fire,
   Op.task 1 TaskOp.tick]

/-! ## Evaluation of the Go primitives -/

theorem wrapInt_of_range {z : Int} (h1 : -9223372036854775808 ≤ z) (h2 : z ≤ 9223372036854775807) :
    wrapInt z = z := by
  unfold wrapInt
  omega


theorem liveNeighbors_eq (g : Grid) (w h x y : Nat) :
    g.liveNeighbors w h x y =
      b2n (g.neighbor w h x y (-1,-1)) + b2n (g.neighbor w h x y (0,-1))
      + b2n (g.neighbor w h x y (1,-1)) + b2n (g.neighbor w h x y (-1,0))
      + b2n (g.neighbor w h x y (1,0)) + b2n (g.neighbor w h x y (-1,1))
      + b2n (g.neighbor w h x y (0,1)) + b2n (g.neighbor w h x y (1,1)) := by
  have hs : neighborOffsets = {(-1,-1),(0,-1),(1,-1),(-1,0),(1,0),(-1,1),(0,1),(1,1)} := by decide
  unfold Grid.liveNeighbors
  rw [hs, Finset.card_filter]
  repeat rw [Finset.sum_insert (by decide)]
  rw [Finset.sum_singleton]
  simp only [b2n]
  omega

theorem index_rows (g : Grid) (i : Int) (h0 : 0 ≤ i) (h1 : i < g.length) :
    index g i = .ok (g.getD i.toNat []) := by
  have : i.toNat < g.length := by omega
  simp [index, this, List.getD, List.getElem?_eq_getElem]
  omega

theorem index_cols (r : List Bool) (i : Int) (h0 : 0 ≤ i) (h1 : i < r.length) :
    index r i = .ok (r.getD i.toNat false) := by
  have : i.toNat < r.length := by omega
  simp [index, this, List.getD, List.getElem?_eq_getElem]
  omega

theorem Grid.HasShape.row_length {g : Grid} {w h : Nat} (hg : g.HasShape w h) {y : Nat}
    (hy : y < h) : (g.getD y []).length = w := by
  obtain ⟨h1, h2⟩ := hg
  have hy2 : y < g.length := by omega
  rw [List.getD_eq_getElem _ _ hy2]
  exact h2 _ (List.getElem_mem _)

theorem index_cell {g : Grid} {w h : Nat} (hg : g.HasShape w h) (nx ny : Int)
    (hx0 : 0 ≤ nx) (hx1 : nx < w) (hy0 : 0 ≤ ny) (hy1 : ny < h) :
    (index g ny >>= fun row => index row nx) = .ok (g.alive nx.toNat ny.toNat) := by
  have hl := hg.1
  have hr := hg.row_length (y := ny.toNat) (by omega)
  rw [index_rows g ny hy0 (by omega)]
  show index _ nx = _
  rw [index_cols _ nx hx0 (by omega)]
  rfl

theorem wrapCoord (x w : Nat) (dx : Int) (hw : 0 < w) (hw2 : (w : Int) < 4611686018427387904)
    (hx : x < w) (h1 : -1 ≤ dx) (h2 : dx ≤ 1) :
    remInt (addInt (addInt (x : Int) dx) w) w = .ok (((x : Int) + dx) % (w : Int)) := by
  have e1 : addInt (x : Int) dx = x + dx := by
    apply wrapInt_of_range <;> omega
  have e2 : addInt ((x : Int) + dx) w = x + dx + w := by
    apply wrapInt_of_range <;> omega
  have hne : (w : Int) ≠ 0 := by omega
  rw [e1, e2]
  simp only [remInt, hne, if_false]
  rw [Int.tmod_eq_emod (by omega) (by omega), Int.add_emod_self]

theorem neighborStep_eq {g : Grid} {w h : Nat} (hg : g.HasShape w h) (x y : Nat)
    (hw : 0 < w) (hw2 : (w : Int) < 4611686018427387904)
    (hh : 0 < h) (hh2 : (h : Int) < 4611686018427387904)
    (hx : x < w) (hy : y < h) (dx dy count : Int)
    (hdx1 : -1 ≤ dx) (hdx2 : dx ≤ 1) (hdy1 : -1 ≤ dy) (hdy2 : dy ≤ 1)
    (hne : ¬ (dx = 0 ∧ dy = 0)) :
    neighborStep g x y w h dy count dx
      = .ok (bump count (g.neighbor w h x y (dx, dy))) := by
  have hwpos : (0 : Int) < w := by omega
  have hhpos : (0 : Int) < h := by omega
  have b1 := Int.emod_nonneg ((x : Int) + dx) (ne_of_gt hwpos)
  have b2 := Int.emod_lt_of_pos ((x : Int) + dx) hwpos
  have b3 := Int.emod_nonneg ((y : Int) + dy) (ne_of_gt hhpos)
  have b4 := Int.emod_lt_of_pos ((y : Int) + dy) hhpos
  have hc := index_cell hg _ _ b1 b2 b3 b4
  unfold neighborStep
  rw [if_neg hne, wrapCoord x w dx hw hw2 hx hdx1 hdx2, wrapCoord y h dy hh hh2 hy hdy1 hdy2]
  simp only [bind, Except.bind, pure, Except.pure] at hc ⊢
  unfold Grid.neighbor bump
  cases hi : index g (((y : Int) + dy) % (h : Int)) with
  | error e => rw [hi] at hc; cases hc
  | ok row =>
    rw [hi] at hc
    simp only at hc ⊢
    rw [hc]
    simp only
    split <;> simp_all

theorem neighborStep_center (g : Grid) (x y w h count : Int) :
    neighborStep g x y w h 0 count 0 = .ok count := by
  simp [neighborStep, pure, Except.pure]

theorem countNeighbors_eq {g : Grid} {w h : Nat} (hg : g.HasShape w h) (x y : Nat)
    (hw : 0 < w) (hw2 : (w : Int) < 4611686018427387904)
    (hh : 0 < h) (hh2 : (h : Int) < 4611686018427387904)
    (hx : x < w) (hy : y < h) :
    countNeighbors g x y w h = .ok ((g.liveNeighbors w h x y : Nat) : Int) := by
  have key := fun (dx dy count : Int) => neighborStep_eq hg x y hw hw2 hh hh2 hx hy dx dy count
  unfold countNeighbors
  simp only [List.foldlM_cons, List.foldlM_nil, neighborStep_center]
  rw [key (-1) (-1) _ (by decide) (by decide) (by decide) (by decide) (by decide)]
  simp only [bind, Except.bind, pure, Except.pure]
  rw [key 0 (-1) _ (by decide) (by decide) (by decide) (by decide) (by decide)]
  simp only [bind, Except.bind, pure, Except.pure]
  rw [key 1 (-1) _ (by decide) (by decide) (by decide) (by decide) (by decide)]
  simp only [bind, Except.bind, pure, Except.pure]
  rw [key (-1) 0 _ (by decide) (by decide) (by decide) (by decide) (by decide)]
  simp only [bind, Except.bind, pure, Except.pure]
  rw [key 1 0 _ (by decide) (by decide) (by decide) (by decide) (by decide)]
  simp only [bind, Except.bind, pure, Except.pure]
  rw [key (-1) 1 _ (by decide) (by decide) (by decide) (by decide) (by decide)]
  simp only [bind, Except.bind, pure, Except.pure]
  rw [key 0 1 _ (by decide) (by decide) (by decide) (by decide) (by decide)]
  simp only [bind, Except.bind, pure, Except.pure]
  rw [key 1 1 _ (by decide) (by decide) (by decide) (by decide) (by decide)]
  rw [liveNeighbors_eq]
  generalize g.neighbor w h x y (-1, -1) = b1
  generalize g.neighbor w h x y (0, -1) = b2
  generalize g.neighbor w h x y (1, -1) = b3
  generalize g.neighbor w h x y (-1, 0) = b4
  generalize g.neighbor w h x y (1, 0) = b5
  generalize g.neighbor w h x y (-1, 1) = b6
  generalize g.neighbor w h x y (0, 1) = b7
  generalize g.neighbor w h x y (1, 1) = b8
  cases b1 <;> cases b2 <;> cases b3 <;> cases b4 <;> cases b5 <;> cases b6 <;> cases b7 <;>
    cases b8 <;> rfl

theorem liveNeighbors_le (g : Grid) (w h x y : Nat) : g.liveNeighbors w h x y ≤ 8 := by
  unfold Grid.liveNeighbors
  exact (Finset.card_filter_le _ _).trans (by decide)

theorem mapM_range_ok {α : Type} (f : Nat → Except Panic α) (v : Nat → α) (l : List Nat)
    (hf : ∀ i ∈ l, f i = .ok (v i)) : l.mapM f = .ok (l.map v) := by
  induction l with
  | nil => rfl
  | cons a t ih =>
    rw [List.mapM_cons, hf a (List.mem_cons_self _ _), ih (fun i hi => hf i (List.mem_cons_of_mem _ hi))]
    rfl


theorem nextGeneration_eq {g : Grid} {w h : Nat} (hg : g.HasShape w h)
    (hw : 0 < w) (hw2 : (w : Int) < 4611686018427387904)
    (hh : 0 < h) (hh2 : (h : Int) < 4611686018427387904) :
    nextGeneration g w h = .ok (ruleGrid g w h) := by
  unfold nextGeneration ruleGrid
  have hl1 : makeLen (h : Int) = .ok h := by simp [makeLen]
  have hl2 : makeLen (w : Int) = .ok w := by simp [makeLen]
  rw [hl1]
  show List.mapM _ _ = _
  apply mapM_range_ok
  intro y hy
  rw [List.mem_range] at hy
  rw [hl2]
  show List.mapM _ _ = _
  apply mapM_range_ok
  intro x hx
  rw [List.mem_range] at hx
  rw [countNeighbors_eq hg x y hw hw2 hh hh2 hx hy]
  have hc := index_cell hg (x : Int) (y : Int) (by omega) (by omega) (by omega) (by omega)
  simp only [bind, Except.bind, pure, Except.pure, Int.toNat_ofNat] at hc ⊢
  cases hi : index g (y : Int) with
  | error e => rw [hi] at hc; cases hc
  | ok row =>
    rw [hi] at hc
    simp only at hc ⊢
    rw [hc]
    simp only [rule]
    split <;> simp_all

theorem ruleGrid_shape (g : Grid) (w h : Nat) : (ruleGrid g w h).HasShape w h := by
  constructor
  · simp [ruleGrid]
  · intro row hrow
    simp only [ruleGrid, List.mem_map] at hrow
    obtain ⟨y, _, rfl⟩ := hrow
    simp

theorem ruleGrid_alive (g : Grid) (w h x y : Nat) (hx : x < w) (hy : y < h) :
    (ruleGrid g w h).alive x y = rule (g.alive x y) (g.liveNeighbors w h x y) := by
  simp [ruleGrid, Grid.alive, List.getD, hx, hy, List.getElem?_range]

theorem neighbor_in_range (w h x y : Nat) (d : Int × Int) (hw : 0 < w) (hh : 0 < h) :
    (((x : Int) + d.1) % (w : Int)).toNat < w ∧ (((y : Int) + d.2) % (h : Int)).toNat < h := by
  have hwpos : (0 : Int) < w := by omega
  have hhpos : (0 : Int) < h := by omega
  have b1 := Int.emod_nonneg ((x : Int) + d.1) (ne_of_gt hwpos)
  have b2 := Int.emod_lt_of_pos ((x : Int) + d.1) hwpos
  have b3 := Int.emod_nonneg ((y : Int) + d.2) (ne_of_gt hhpos)
  have b4 := Int.emod_lt_of_pos ((y : Int) + d.2) hhpos
  omega

theorem liveNeighbors_allDead {g : Grid} {w h : Nat} (hd : g.AllDead w h) (x y : Nat)
    (hw : 0 < w) (hh : 0 < h) : g.liveNeighbors w h x y = 0 := by
  unfold Grid.liveNeighbors
  rw [Finset.card_eq_zero, Finset.filter_eq_empty_iff]
  intro d _
  have hr := neighbor_in_range w h x y d hw hh
  simp [Grid.neighbor, hd _ _ hr.1 hr.2]

/-- C1: for `w, h >= 1` and a grid of `h` rows by `w` columns, `nextGeneration`
returns a grid of `h` rows by `w` columns in which the cell `[y][x]` is alive
iff the input cell is alive with 2 or 3 live neighbours or dead with exactly 3,
the count being `countNeighbors` on the input grid; an all-dead grid maps to an
all-dead grid.  The dimensions are slice lengths, below `dimLimit`. -/
theorem nextGeneration_rule (w h : Nat) (g : Grid) (hw : 1 ≤ w) (hh : 1 ≤ h)
    (hwl : w < dimLimit) (hhl : h < dimLimit) (hg : g.HasShape w h) :
    ∃ next, nextGeneration g w h = .ok next ∧ next.HasShape w h ∧
      (∀ x y, x < w → y < h →
        ∃ n, countNeighbors g x y w h = .ok n ∧
          (next.alive x y = true ↔
            (g.alive x y = true ∧ (n = 2 ∨ n = 3)) ∨ (g.alive x y = false ∧ n = 3))) ∧
      (g.AllDead w h → next.AllDead w h) := by
  have hw2 : (w : Int) < 4611686018427387904 := by unfold dimLimit at hwl; omega
  have hh2 : (h : Int) < 4611686018427387904 := by unfold dimLimit at hhl; omega
  refine ⟨ruleGrid g w h, nextGeneration_eq hg hw hw2 hh hh2, ruleGrid_shape g w h, ?_, ?_⟩
  · intro x y hx hy
    refine ⟨_, countNeighbors_eq hg x y hw hw2 hh hh2 hx hy, ?_⟩
    rw [ruleGrid_alive g w h x y hx hy]
    cases hc : g.alive x y <;> simp [rule]
  · intro hd x y hx hy
    rw [ruleGrid_alive g w h x y hx hy, hd x y hx hy, liveNeighbors_allDead hd x y hw hh]
    rfl

/-- Witness of C1 on a 2 by 2 grid with one live cell. -/
theorem nextGeneration_rule_witness :
    ∃ next, nextGeneration [[true, false], [false, false]] (2 : Nat) (2 : Nat) = .ok next ∧
      next.HasShape 2 2 ∧
      (∀ x y : Nat, x < 2 → y < 2 →
        ∃ n, countNeighbors [[true, false], [false, false]] x y (2 : Nat) (2 : Nat) = .ok n ∧
          (next.alive x y = true ↔
            (Grid.alive [[true, false], [false, false]] x y = true ∧ (n = 2 ∨ n = 3)) ∨
              (Grid.alive [[true, false], [false, false]] x y = false ∧ n = 3))) ∧
      (Grid.AllDead [[true, false], [false, false]] 2 2 → next.AllDead 2 2) :=
  nextGeneration_rule 2 2 [[true, false], [false, false]] (by decide) (by decide)
    (by decide) (by decide) (by simp [Grid.HasShape])

/-- C2: for an in-range cell of a `w` by `h` grid, `countNeighbors` returns the
number of offsets `(dx, dy)` other than `(0, 0)` in -1, 0, 1 squared whose cell
`[(y+dy) mod h][(x+dx) mod w]` is alive; the result is between 0 and 8; and when
the cell `(w-1, h-1)` is alive, the count for `(0, 0)` is at least 1.  The
dimensions are slice lengths, below `dimLimit`. -/
theorem countNeighbors_toroidal (w h : Nat) (g : Grid) (x y : Nat) (hw : 1 ≤ w) (hh : 1 ≤ h)
    (hwl : w < dimLimit) (hhl : h < dimLimit) (hg : g.HasShape w h) (hx : x < w) (hy : y < h) :
    (∃ n : Int, countNeighbors g x y w h = .ok n ∧
      n = ((neighborOffsets.filter fun d =>
            g.alive (((x : Int) + d.1) % (w : Int)).toNat
              (((y : Int) + d.2) % (h : Int)).toNat = true).card : Nat) ∧
      0 ≤ n ∧ n ≤ 8) ∧
    (g.alive (w - 1) (h - 1) = true →
      ∃ m : Int, countNeighbors g (0 : Nat) (0 : Nat) w h = .ok m ∧ 1 ≤ m) := by
  have hw2 : (w : Int) < 4611686018427387904 := by unfold dimLimit at hwl; omega
  have hh2 : (h : Int) < 4611686018427387904 := by unfold dimLimit at hhl; omega
  constructor
  · refine ⟨_, countNeighbors_eq hg x y hw hw2 hh hh2 hx hy, rfl, ?_, ?_⟩
    · exact Int.natCast_nonneg _
    · have := liveNeighbors_le g w h x y
      omega
  · intro hc
    refine ⟨_, countNeighbors_eq hg 0 0 hw hw2 hh hh2 (by omega) (by omega), ?_⟩
    have hpos : 0 < g.liveNeighbors w h 0 0 := by
      unfold Grid.liveNeighbors
      rw [Finset.card_pos]
      refine ⟨(-1, -1), Finset.mem_filter.mpr ⟨by decide, ?_⟩⟩
      have e1 : (((0 : Nat) : Int) + (-1)) % (w : Int) = ((w - 1 : Nat) : Int) := by
        have : (((0 : Nat) : Int) + (-1)) = ((w - 1 : Nat) : Int) + (w : Int) * (-1) := by
          omega
        rw [this, Int.add_mul_emod_self_left]
        exact Int.emod_eq_of_lt (by omega) (by omega)
      have e2 : (((0 : Nat) : Int) + (-1)) % (h : Int) = ((h - 1 : Nat) : Int) := by
        have : (((0 : Nat) : Int) + (-1)) = ((h - 1 : Nat) : Int) + (h : Int) * (-1) := by
          omega
        rw [this, Int.add_mul_emod_self_left]
        exact Int.emod_eq_of_lt (by omega) (by omega)
      simp only [Grid.neighbor, e1, e2, Int.toNat_ofNat]
      exact hc
    omega

/-- Witness of C2 on a 3 by 2 grid whose last cell is alive. -/
theorem countNeighbors_toroidal_witness :
    (∃ n : Int, countNeighbors [[false, false, false], [false, false, true]]
        (1 : Nat) (0 : Nat) (3 : Nat) (2 : Nat) = .ok n ∧
      n = ((neighborOffsets.filter fun d =>
            Grid.alive [[false, false, false], [false, false, true]]
              ((((1 : Nat) : Int) + d.1) % ((3 : Nat) : Int)).toNat
              ((((0 : Nat) : Int) + d.2) % ((2 : Nat) : Int)).toNat = true).card : Nat) ∧
      0 ≤ n ∧ n ≤ 8) ∧
    (Grid.alive [[false, false, false], [false, false, true]] (3 - 1) (2 - 1) = true →
      ∃ m : Int, countNeighbors [[false, false, false], [false, false, true]]
        (0 : Nat) (0 : Nat) (3 : Nat) (2 : Nat) = .ok m ∧ 1 ≤ m) :=
  countNeighbors_toroidal 3 2 [[false, false, false], [false, false, true]] 1 0
    (by decide) (by decide) (by decide) (by decide) (by simp [Grid.HasShape]) (by decide)
    (by decide)

/-! ## The controller -/

theorem Step_ok (a : App) (next : Grid)
    (hn : nextGeneration a.cells a.width a.height = .ok next) :
    ∃ a1, a.Step = .ok (a1, a1.snapshot) ∧ a1.cells = next ∧ a1.gen = addInt a.gen 1 ∧
      a1.playing = a.playing ∧ a1.width = a.width ∧ a1.height = a.height ∧
      a1.heap = a.heap ++ [next] ∧ a1.grid = a.heap.length ∧ a1.chans = a.chans ∧
      a1.stopChan = a.stopChan ∧ a1.events = a.events := by
  refine ⟨{ a.assignNew next with gen := addInt a.gen 1 }, ?_, ?_, rfl, rfl, rfl, rfl, rfl, rfl,
    rfl, rfl, rfl⟩
  · unfold App.Step
    rw [hn]
    rfl
  · simp [App.assignNew, App.cells, App.deref]

theorem assignNew_gen_cells (a : App) (g : Grid) (z : Int) :
    App.cells { a.assignNew g with gen := z } = g := by
  simp [App.assignNew, App.cells, App.deref]

/-- C3, refuted as stated: on the 3 by 3 vertical blinker one `Step` does not
yield the grid with exactly (0,1), (1,1), (2,1) alive followed by a return to
the original grid. -/
theorem Step_blinker_3x3_not_oscillating :
    ¬ ∃ a1 s1 a2 s2, blinkerApp.Step = .ok (a1, s1) ∧
        (∀ x y, x < 3 → y < 3 → (a1.cells.alive x y = true ↔ y = 1)) ∧
        a1.Step = .ok (a2, s2) ∧ a2.cells = blinkerApp.cells := by
  rintro ⟨a1, s1, a2, s2, h1, h2, -⟩
  have hn : nextGeneration blinkerApp.cells blinkerApp.width blinkerApp.height
      = .ok [[true, true, true], [true, true, true], [true, true, true]] := by decide
  obtain ⟨b, hb, hc, -⟩ := Step_ok _ _ hn
  rw [hb] at h1
  injection h1 with h1
  injection h1 with h1 _
  subst h1
  have h := (h2 0 0 (by decide) (by decide)).mp (by rw [hc]; rfl)
  exact absurd h (by decide)

/-- C3, amended: on a controller whose grid is 3 by 3 with exactly the cells
(1,0), (1,1), (1,2) alive, one `Step` yields the grid with all nine cells alive
(the column wraps onto itself on the 3 by 3 torus), and a second `Step` yields
the all-dead grid.  On a 5 by 5 grid with exactly (2,1), (2,2), (2,3) alive, one
`Step` yields exactly (1,2), (2,2), (3,2) alive and a second `Step` restores the
original pattern. -/
theorem Step_blinker_3x3 (a b : App) (hw : a.width = 3) (hh : a.height = 3)
    (hg : a.cells = blinkerVertical) (hbw : b.width = 5) (hbh : b.height = 5)
    (hbg : b.cells = blinker5Vertical) :
    (∃ a1 s1 a2 s2, a.Step = .ok (a1, s1) ∧
      (∀ x y, x < 3 → y < 3 → a1.cells.alive x y = true) ∧
      a1.Step = .ok (a2, s2) ∧
      (∀ x y, x < 3 → y < 3 → a2.cells.alive x y = false)) ∧
    (∃ b1 t1 b2 t2, b.Step = .ok (b1, t1) ∧ b1.cells = blinker5Horizontal ∧
      b1.Step = .ok (b2, t2) ∧ b2.cells = blinker5Vertical) := by
  constructor
  · have hn1 : nextGeneration a.cells a.width a.height
        = .ok [[true, true, true], [true, true, true], [true, true, true]] := by
      rw [hw, hh, hg]; decide
    obtain ⟨a1, e1, c1, -, -, w1, h1, -⟩ := Step_ok a _ hn1
    have hn2 : nextGeneration a1.cells a1.width a1.height
        = .ok [[false, false, false], [false, false, false], [false, false, false]] := by
      rw [c1, w1, h1, hw, hh]; decide
    obtain ⟨a2, e2, c2, -⟩ := Step_ok a1 _ hn2
    refine ⟨a1, _, a2, _, e1, ?_, e2, ?_⟩
    · rw [c1]
      intro x y hx hy
      interval_cases x <;> interval_cases y <;> rfl
    · rw [c2]
      intro x y hx hy
      interval_cases x <;> interval_cases y <;> rfl
  · have hn1 : nextGeneration b.cells b.width b.height = .ok blinker5Horizontal := by
      rw [hbw, hbh, hbg]; decide
    obtain ⟨b1, e1, c1, -, -, w1, h1, -⟩ := Step_ok b _ hn1
    have hn2 : nextGeneration b1.cells b1.width b1.height = .ok blinker5Vertical := by
      rw [c1, w1, h1, hbw, hbh]; decide
    obtain ⟨b2, e2, c2, -⟩ := Step_ok b1 _ hn2
    exact ⟨b1, _, b2, _, e1, c1, e2, c2⟩

/-- Witness of the amended C3 on `blinkerApp` and `blinker5App`. -/
theorem Step_blinker_3x3_witness :
    (∃ a1 s1 a2 s2, blinkerApp.Step = .ok (a1, s1) ∧
      (∀ x y, x < 3 → y < 3 → a1.cells.alive x y = true) ∧
      a1.Step = .ok (a2, s2) ∧
      (∀ x y, x < 3 → y < 3 → a2.cells.alive x y = false)) ∧
    (∃ b1 t1 b2 t2, blinker5App.Step = .ok (b1, t1) ∧ b1.cells = blinker5Horizontal ∧
      b1.Step = .ok (b2, t2) ∧ b2.cells = blinker5Vertical) :=
  Step_blinker_3x3 blinkerApp blinker5App rfl rfl rfl rfl rfl rfl

theorem wrapInt_succ {z : Int} (hz : IsInt z) (hlt : z < maxInt) : addInt z 1 = z + 1 := by
  unfold IsInt minInt maxInt at *
  unfold addInt
  apply wrapInt_of_range <;> omega

theorem GridOk_eval {a : App} (hg : a.GridOk) :
    nextGeneration a.cells a.width a.height
      = .ok (ruleGrid a.cells a.width.toNat a.height.toNat) := by
  obtain ⟨h1, h2, h3, h4, h5⟩ := hg
  unfold dimLimit at h2 h4
  have := nextGeneration_eq h5 (by omega) (by omega) (by omega) (by omega)
  rwa [Int.toNat_of_nonneg (by omega), Int.toNat_of_nonneg (by omega)] at this

/-- C4: for every controller state, `Step` replaces the grid with
`nextGeneration(grid, width, height)`, sets generation to the previous
generation plus exactly 1, leaves `playing`, `width` and `height` unchanged, and
returns a snapshot whose grid, generation and playing fields equal the state
after the step.  The state satisfies the grid invariant and its generation is a
Go `int` below the largest one. -/
theorem Step_spec (a : App) (hg : a.GridOk) (hi : IsInt a.gen) (hlt : a.gen < maxInt) :
    ∃ next a1 s, nextGeneration a.cells a.width a.height = .ok next ∧
      a.Step = .ok (a1, s) ∧ a1.cells = next ∧ a1.gen = a.gen + 1 ∧
      a1.playing = a.playing ∧ a1.width = a.width ∧ a1.height = a.height ∧
      s.Grid = a1.grid ∧ a1.deref s.Grid = next ∧ s.Generation = a1.gen ∧
      s.Playing = a1.playing := by
  obtain ⟨a1, e1, c1, g1, p1, w1, h1, -⟩ := Step_ok a _ (GridOk_eval hg)
  refine ⟨_, a1, a1.snapshot, GridOk_eval hg, e1, c1, ?_, p1, w1, h1, rfl, c1, rfl, rfl⟩
  rw [g1, wrapInt_succ hi hlt]

/-- Witness of C4 on `blinkerApp`. -/
theorem Step_spec_witness :
    ∃ next a1 s, nextGeneration blinkerApp.cells blinkerApp.width blinkerApp.height = .ok next ∧
      blinkerApp.Step = .ok (a1, s) ∧ a1.cells = next ∧ a1.gen = blinkerApp.gen + 1 ∧
      a1.playing = blinkerApp.playing ∧ a1.width = blinkerApp.width ∧
      a1.height = blinkerApp.height ∧
      s.Grid = a1.grid ∧ a1.deref s.Grid = next ∧ s.Generation = a1.gen ∧
      s.Playing = a1.playing :=
  Step_spec blinkerApp (by unfold App.GridOk Grid.HasShape; decide)
    (by unfold IsInt; decide) (by decide)

theorem makeGrid_eq (w h : Int) (hw : 0 ≤ w) (hh : 0 ≤ h) :
    makeGrid w h = .ok (List.replicate h.toNat (List.replicate w.toNat false)) := by
  unfold makeGrid
  have hl1 : makeLen h = .ok h.toNat := by simp [makeLen, hh]
  have hl2 : makeLen w = .ok w.toNat := by simp [makeLen, hw]
  rw [hl1]
  show List.mapM _ _ = _
  rw [mapM_range_ok _ (fun _ => List.replicate w.toNat false)]
  · congr 1
    apply List.ext_getElem <;> simp
  · intro i _
    rw [hl2]
    rfl

theorem replicate_shape (w h : Nat) :
    Grid.HasShape (List.replicate h (List.replicate w false)) w h := by
  constructor
  · simp
  · intro row hrow
    rw [List.eq_of_mem_replicate hrow]
    simp

theorem replicate_alive (w h x y : Nat) :
    Grid.alive (List.replicate h (List.replicate w false)) x y = false := by
  unfold Grid.alive
  simp only [List.getD_eq_getElem?_getD, List.getElem?_replicate]
  by_cases hy : y < h <;> by_cases hx : x < w <;> simp [hx, hy]

theorem cancel_ok (a : App) (hc : a.ChanOpen) :
    ∃ a1, a.cancel = .ok a1 ∧ a1.playing = false ∧ a1.heap = a.heap ∧ a1.grid = a.grid ∧
      a1.gen = a.gen ∧ a1.width = a.width ∧ a1.height = a.height ∧
      a1.stopChan = a.stopChan ∧ a1.events = a.events ∧ (a.playing = false → a1 = a) := by
  unfold App.cancel
  cases hp : a.playing with
  | false => exact ⟨a, rfl, hp, rfl, rfl, rfl, rfl, rfl, rfl, rfl, fun _ => rfl⟩
  | true =>
    obtain ⟨c, h1, h2⟩ := hc hp
    refine ⟨{ a with chans := a.chans.set c true, playing := false }, ?_, rfl, rfl, rfl, rfl,
      rfl, rfl, rfl, rfl, fun h => by cases h⟩
    simp only [if_true, closeChan, h1, h2]
    rfl

theorem grid_valid {a : App} (h : a.cells ≠ []) : a.grid < a.heap.length := by
  by_contra hlt
  apply h
  simp only [App.cells, App.deref, List.getD_eq_getElem?_getD]
  rw [List.getElem?_eq_none (by omega)]
  rfl

theorem cells_eq_getElem {a : App} (h : a.grid < a.heap.length) : a.heap[a.grid] = a.cells := by
  simp [App.cells, App.deref, List.getElem?_eq_getElem h]

theorem poke_cells {a : App} (h : a.grid < a.heap.length) (x y : Nat) (v : Bool) :
    (a.poke x y v).cells = a.cells.set y ((a.cells.getD y []).set x v) := by
  simp [App.poke, App.cells, App.deref, List.getElem?_set_self h]

theorem alive_set (g : Grid) (x y x1 y1 : Nat) (v : Bool) (hy : y < g.length)
    (hx : x < (g.getD y []).length) :
    Grid.alive (g.set y ((g.getD y []).set x v)) x1 y1
      = if x1 = x ∧ y1 = y then v else g.alive x1 y1 := by
  unfold Grid.alive
  simp only [List.getD_eq_getElem?_getD, List.getElem?_set] at hx ⊢
  by_cases hyy : y = y1
  · subst hyy
    by_cases hxx : x = x1
    · subst hxx
      rw [List.getElem?_eq_getElem hy] at hx
      simp only [Option.getD_some] at hx
      simp [hy, hx]
    · have : ¬ x1 = x := fun h => hxx h.symm
      simp [hy, hxx, this]
  · have : ¬ y1 = y := fun h => hyy h.symm
    simp [hyy, this]

theorem set_shape {g : Grid} {w h : Nat} (hg : g.HasShape w h) (x y : Nat) (v : Bool)
    (hy : y < h) :
    Grid.HasShape (g.set y ((g.getD y []).set x v)) w h := by
  constructor
  · simpa using hg.1
  · intro row hrow
    rcases List.mem_or_eq_of_mem_set hrow with hm | rfl
    · exact hg.2 _ hm
    · rw [List.length_set]
      exact hg.row_length hy

theorem writeCell_ok (a : App) (x y : Nat) (v : Bool) (hy : y < a.cells.length)
    (hx : x < (a.cells.getD y []).length) :
    a.writeCell (x : Int) (y : Int) v = .ok (a.poke x y v) := by
  unfold App.writeCell
  rw [index_rows _ _ (by omega) (by omega)]
  simp only [bind, Except.bind, Int.toNat_ofNat]
  rw [index_cols _ _ (by omega) (by omega)]
  rfl

theorem ToggleCell_ok (a : App) (x y : Nat) (hxw : (x : Int) < a.width)
    (hyh : (y : Int) < a.height) (hy : y < a.cells.length)
    (hx : x < (a.cells.getD y []).length) :
    a.ToggleCell (x : Int) (y : Int)
      = .ok (a.poke x y (!a.cells.alive x y), (a.poke x y (!a.cells.alive x y)).snapshot) := by
  unfold App.ToggleCell
  have hcond : (x : Int) ≥ 0 ∧ (x : Int) < a.width ∧ (y : Int) ≥ 0 ∧ (y : Int) < a.height :=
    ⟨by omega, hxw, by omega, hyh⟩
  rw [if_pos hcond, index_rows _ _ (by omega) (by omega)]
  simp only [bind, Except.bind, Int.toNat_ofNat]
  rw [index_cols _ _ (by omega) (by omega)]
  simp only
  rw [writeCell_ok a x y _ hy hx]
  rfl

theorem set_set_getD {α : Type} (l : List α) (i : Nat) (v d : α) (h : i < l.length) :
    (l.set i v).set i (l.getD i d) = l := by
  rw [List.set_set]
  apply List.ext_getElem
  · simp
  · intro n h1 h2
    rw [List.getElem_set]
    split
    · rename_i hn
      subst hn
      simp [List.getElem?_eq_getElem h]
    · rfl

theorem poke_poke {a : App} (h : a.grid < a.heap.length) (x y : Nat) (v : Bool)
    (hy : y < a.cells.length) (hx : x < (a.cells.getD y []).length) :
    (a.poke x y v).poke x y (a.cells.alive x y) = a := by
  have hc := poke_cells h x y v
  have hrow : ((a.poke x y v).cells.getD y []) = (a.cells.getD y []).set x v := by
    rw [hc]
    simp [List.getElem?_set_self hy]
  have e1 : ((a.cells.getD y []).set x v).set x (a.cells.alive x y) = a.cells.getD y [] :=
    set_set_getD _ _ _ _ hx
  have e2 : (a.cells.set y ((a.cells.getD y []).set x v)).set y (a.cells.getD y []) = a.cells :=
    set_set_getD _ _ _ _ hy
  have e3 : (a.heap.set a.grid (a.cells.set y ((a.cells.getD y []).set x v))).set a.grid a.cells
      = a.heap := set_set_getD _ _ _ _ h
  have key : ((a.poke x y v).poke x y (a.cells.alive x y)).heap = a.heap := by
    show ((a.poke x y v).heap.set (a.poke x y v).grid
      ((a.poke x y v).cells.set y (((a.poke x y v).cells.getD y []).set x (a.cells.alive x y))))
        = a.heap
    rw [hrow, e1, hc, e2]
    exact e3
  cases a
  simp only [App.poke] at key ⊢
  rw [key]

/-- C6: for an in-range coordinate, `ToggleCell(x, y)` flips `grid[y][x]` and
changes no other cell, and a second `ToggleCell(x, y)` returns the whole grid
(indeed the whole state) to its original value, generation and `playing`
unchanged.  The grid has `height` rows of `width` columns. -/
theorem ToggleCell_involutive (a : App) (x y : Nat) (hx : (x : Int) < a.width)
    (hy : (y : Int) < a.height) (hg : a.cells.HasShape a.width.toNat a.height.toNat) :
    ∃ a1 s1 a2 s2, a.ToggleCell x y = .ok (a1, s1) ∧
      a1.cells.alive x y = (!a.cells.alive x y) ∧
      (∀ x1 y1, ¬ (x1 = x ∧ y1 = y) → a1.cells.alive x1 y1 = a.cells.alive x1 y1) ∧
      a1.cells.HasShape a.width.toNat a.height.toNat ∧
      a1.gen = a.gen ∧ a1.playing = a.playing ∧
      a1.ToggleCell x y = .ok (a2, s2) ∧
      a2.cells = a.cells ∧ a2.gen = a.gen ∧ a2.playing = a.playing ∧ a2 = a := by
  have hyl : y < a.cells.length := by rw [hg.1]; omega
  have hxl : x < (a.cells.getD y []).length := by
    rw [hg.row_length (y := y) (by omega)]; omega
  have hv : a.grid < a.heap.length := grid_valid (by
    intro h0; rw [h0] at hyl; exact absurd hyl (by simp))
  have hc := poke_cells hv x y (!a.cells.alive x y)
  have hs := set_shape hg x y (!a.cells.alive x y) (by omega)
  have hyl1 : y < (a.poke x y (!a.cells.alive x y)).cells.length := by rw [hc]; simpa using hyl
  have hxl1 : x < ((a.poke x y (!a.cells.alive x y)).cells.getD y []).length := by
    rw [hc]; rw [hs.row_length (y := y) (by omega)]; omega
  have ha1 : (a.poke x y (!a.cells.alive x y)).cells.alive x y = (!a.cells.alive x y) := by
    rw [hc, alive_set _ _ _ _ _ _ hyl hxl]; simp
  have hback : (a.poke x y (!a.cells.alive x y)).poke x y
      (!(a.poke x y (!a.cells.alive x y)).cells.alive x y) = a := by
    rw [ha1, Bool.not_not]
    exact poke_poke hv x y _ hyl hxl
  have e2 := ToggleCell_ok (a.poke x y (!a.cells.alive x y)) x y hx hy hyl1 hxl1
  rw [hback] at e2
  refine ⟨_, _, a, a.snapshot, ToggleCell_ok a x y hx hy hyl hxl, ha1, ?_, ?_, rfl, rfl, e2,
    rfl, rfl, rfl, rfl⟩
  · intro x1 y1 hne
    rw [hc, alive_set _ _ _ _ _ _ hyl hxl, if_neg hne]
  · rw [hc]; exact hs

/-- Witness of C6 on `blinkerApp` at the cell (1, 2). -/
theorem ToggleCell_involutive_witness :
    ∃ a1 s1 a2 s2, blinkerApp.ToggleCell (1 : Nat) (2 : Nat) = .ok (a1, s1) ∧
      a1.cells.alive 1 2 = (!blinkerApp.cells.alive 1 2) ∧
      (∀ x1 y1, ¬ (x1 = 1 ∧ y1 = 2) → a1.cells.alive x1 y1 = blinkerApp.cells.alive x1 y1) ∧
      a1.cells.HasShape blinkerApp.width.toNat blinkerApp.height.toNat ∧
      a1.gen = blinkerApp.gen ∧ a1.playing = blinkerApp.playing ∧
      a1.ToggleCell (1 : Nat) (2 : Nat) = .ok (a2, s2) ∧
      a2.cells = blinkerApp.cells ∧ a2.gen = blinkerApp.gen ∧
      a2.playing = blinkerApp.playing ∧ a2 = blinkerApp :=
  ToggleCell_involutive blinkerApp 1 2 (by decide) (by decide)
    (by unfold Grid.HasShape; decide)

/-- C7: for an out-of-range pair `(x, y)` (any integers, negative ones
included), `ToggleCell` and `SetCell` leave the grid, the generation and
`playing` unchanged and complete without a panic; `ToggleCell` returns the
snapshot of the unchanged state. -/
theorem outOfRange_ignored (a : App) (x y : Int) (alive : Bool)
    (h : x < 0 ∨ x ≥ a.width ∨ y < 0 ∨ y ≥ a.height) :
    a.ToggleCell x y = .ok (a, a.snapshot) ∧
    ∃ a1, a.SetCell x y alive = .ok a1 ∧ a1.heap = a.heap ∧ a1.grid = a.grid ∧
      a1.cells = a.cells ∧ a1.gen = a.gen ∧ a1.playing = a.playing ∧
      a1.width = a.width ∧ a1.height = a.height ∧
      a1.events = a.events ++ [Event.cellUpdated x y alive] := by
  have hcond : ¬ (x ≥ 0 ∧ x < a.width ∧ y ≥ 0 ∧ y < a.height) := by omega
  constructor
  · unfold App.ToggleCell
    rw [if_neg hcond]
    rfl
  · refine ⟨{ a with events := a.events ++ [Event.cellUpdated x y alive] }, ?_, rfl, rfl, rfl,
      rfl, rfl, rfl, rfl, rfl⟩
    unfold App.SetCell
    rw [if_neg hcond]
    rfl

/-- Witness of C7 at `x = width` on `blinkerApp`. -/
theorem outOfRange_ignored_witness :
    blinkerApp.ToggleCell 3 0 = .ok (blinkerApp, blinkerApp.snapshot) ∧
    ∃ a1, blinkerApp.SetCell 3 0 true = .ok a1 ∧ a1.heap = blinkerApp.heap ∧
      a1.grid = blinkerApp.grid ∧
      a1.cells = blinkerApp.cells ∧ a1.gen = blinkerApp.gen ∧
      a1.playing = blinkerApp.playing ∧
      a1.width = blinkerApp.width ∧ a1.height = blinkerApp.height ∧
      a1.events = blinkerApp.events ++ [Event.cellUpdated 3 0 true] :=
  outOfRange_ignored blinkerApp 3 0 true (by decide)

/-- C10: `StopAutoPlay` leaves grid and generation unchanged, leaves `playing`
false and returns a snapshot of exactly that state; on an Idle controller the
whole state is unchanged; and a second call gives the same state and snapshot
as the first.  The state meets the playback-session invariant (`playing` only
with an open stop channel). -/
theorem StopAutoPlay_spec (a : App) (hc : a.ChanOpen) :
    ∃ a1 s, a.StopAutoPlay = .ok (a1, s) ∧
      a1.heap = a.heap ∧ a1.grid = a.grid ∧ a1.cells = a.cells ∧ a1.gen = a.gen ∧
      a1.playing = false ∧ s = a1.snapshot ∧
      s = { Grid := a.grid, Generation := a.gen, Playing := false } ∧
      (a.playing = false → a1 = a) ∧
      a1.StopAutoPlay = .ok (a1, s) := by
  obtain ⟨b, e, p, hhp, hgr, hgn, -, -, -, -, hidle⟩ := cancel_ok a hc
  have hb : b.StopAutoPlay = .ok (b, b.snapshot) := by
    unfold App.StopAutoPlay App.cancel
    rw [p]
    rfl
  refine ⟨b, b.snapshot, ?_, hhp, hgr, ?_, hgn, p, rfl, ?_, hidle, hb⟩
  · unfold App.StopAutoPlay
    rw [e]
    rfl
  · simp [App.cells, App.deref, hhp, hgr]
  · simp [App.snapshot, hgr, hgn, p]

/-- Witness of C10 on a playing controller. -/
theorem StopAutoPlay_spec_witness :
    ∃ a1 s, playingApp.StopAutoPlay = .ok (a1, s) ∧
      a1.heap = playingApp.heap ∧ a1.grid = playingApp.grid ∧ a1.cells = playingApp.cells ∧
      a1.gen = playingApp.gen ∧
      a1.playing = false ∧ s = a1.snapshot ∧
      s = { Grid := playingApp.grid, Generation := playingApp.gen, Playing := false } ∧
      (playingApp.playing = false → a1 = playingApp) ∧
      a1.StopAutoPlay = .ok (a1, s) :=
  StopAutoPlay_spec playingApp (fun _ => ⟨0, rfl, rfl⟩)

/-! ## Patterns on the torus -/

theorem toNat_prev (n x : Nat) (hx : x < n) :
    (((x : Int) + (-1)) % (n : Int)).toNat = prevCoord n x := by
  unfold prevCoord
  split
  · rename_i h0
    subst h0
    have : (((0 : Nat) : Int) + (-1)) = ((n - 1 : Nat) : Int) + (n : Int) * (-1) := by omega
    rw [this, Int.add_mul_emod_self_left, Int.emod_eq_of_lt (by omega) (by omega)]
    rfl
  · rw [Int.emod_eq_of_lt (by omega) (by omega)]
    omega

theorem toNat_same (n x : Nat) (hx : x < n) :
    (((x : Int) + 0) % (n : Int)).toNat = x := by
  rw [Int.add_zero, Int.emod_eq_of_lt (by omega) (by omega)]
  rfl

theorem toNat_next (n x : Nat) (hx : x < n) :
    (((x : Int) + 1) % (n : Int)).toNat = nextCoord n x := by
  unfold nextCoord
  split
  · rename_i h0
    have : ((x : Int) + 1) = (n : Int) := by omega
    rw [this, Int.emod_self]
    rfl
  · rw [Int.emod_eq_of_lt (by omega) (by omega)]
    omega

theorem liveNeighbors_coords (g : Grid) (w h x y : Nat) (hx : x < w) (hy : y < h) :
    g.liveNeighbors w h x y =
      b2n (g.alive (prevCoord w x) (prevCoord h y)) + b2n (g.alive x (prevCoord h y))
      + b2n (g.alive (nextCoord w x) (prevCoord h y)) + b2n (g.alive (prevCoord w x) y)
      + b2n (g.alive (nextCoord w x) y) + b2n (g.alive (prevCoord w x) (nextCoord h y))
      + b2n (g.alive x (nextCoord h y)) + b2n (g.alive (nextCoord w x) (nextCoord h y)) := by
  rw [liveNeighbors_eq]
  simp only [Grid.neighbor, toNat_prev w x hx, toNat_same w x hx, toNat_next w x hx,
    toNat_prev h y hy, toNat_same h y hy, toNat_next h y hy]

theorem prevCoord_lt (n x : Nat) (hx : x < n) : prevCoord n x < n := by
  unfold prevCoord; split <;> omega

theorem nextCoord_lt (n x : Nat) (hx : x < n) : nextCoord n x < n := by
  unfold nextCoord; split <;> omega

theorem singleCell_count (w h : Nat) (g : Grid) (x0 y0 : Nat) (hx0 : x0 < w) (hy0 : y0 < h)
    (hone : g.OnlyAlive w h x0 y0) :
    g.liveNeighbors w h x0 y0 =
      if w = 1 ∧ h = 1 then 8 else if w = 1 ∨ h = 1 then 2 else 0 := by
  have hb : ∀ x y, x < w → y < h → g.alive x y = decide (x = x0 ∧ y = y0) := by
    intro x y hx hy
    have := hone x y hx hy
    cases hc : g.alive x y <;> simp_all
  have px := prevCoord_lt w x0 hx0
  have nx := nextCoord_lt w x0 hx0
  have py := prevCoord_lt h y0 hy0
  have ny := nextCoord_lt h y0 hy0
  have hpx : prevCoord w x0 = x0 ↔ w = 1 := by unfold prevCoord; split <;> omega
  have hnx : nextCoord w x0 = x0 ↔ w = 1 := by unfold nextCoord; split <;> omega
  have hpy : prevCoord h y0 = y0 ↔ h = 1 := by unfold prevCoord; split <;> omega
  have hny : nextCoord h y0 = y0 ↔ h = 1 := by unfold nextCoord; split <;> omega
  rw [liveNeighbors_coords g w h x0 y0 hx0 hy0, hb _ _ px py, hb _ _ hx0 py, hb _ _ nx py,
    hb _ _ px hy0, hb _ _ nx hy0, hb _ _ px ny, hb _ _ hx0 ny, hb _ _ nx ny]
  simp only [hpx, hnx, hpy, hny, true_and, and_true]
  by_cases h1 : w = 1 <;> by_cases h2 : h = 1 <;> simp [h1, h2, b2n]

/-- C9, refuted as stated: on the 1 by 2 grid whose only live cell is (0, 0)
that cell counts itself as its left and right neighbour and is alive in the
next generation. -/
theorem singleCell_survives_on_strip :
    Grid.HasShape [[true], [false]] 1 2 ∧ Grid.OnlyAlive [[true], [false]] 1 2 0 0 ∧
      countNeighbors [[true], [false]] 0 0 1 2 = .ok 2 ∧
      ∃ next, nextGeneration [[true], [false]] 1 2 = .ok next ∧ next.alive 0 0 = true := by
  refine ⟨by unfold Grid.HasShape; decide, ?_, by decide, [[true], [false]], by decide,
    by decide⟩
  intro x y hx hy
  interval_cases x
  interval_cases y <;> decide

/-- C9, amended: in a `w` by `h` grid with exactly one live cell, that cell is
dead in `nextGeneration` when `w >= 2` and `h >= 2`, and when `w = h = 1`; when
exactly one of `w`, `h` is 1 the cell is its own neighbour twice (count 2) and
stays alive.  The dimensions are slice lengths, below `dimLimit`. -/
theorem singleCell_fate (w h : Nat) (g : Grid) (x0 y0 : Nat) (hw : 1 ≤ w) (hh : 1 ≤ h)
    (hwl : w < dimLimit) (hhl : h < dimLimit) (hg : g.HasShape w h)
    (hx0 : x0 < w) (hy0 : y0 < h) (hone : g.OnlyAlive w h x0 y0) :
    ∃ next, nextGeneration g w h = .ok next ∧
      ((2 ≤ w ∧ 2 ≤ h) ∨ (w = 1 ∧ h = 1) → next.alive x0 y0 = false) ∧
      ((w = 1 ∧ 2 ≤ h) ∨ (2 ≤ w ∧ h = 1) → next.alive x0 y0 = true) := by
  have hw2 : (w : Int) < 4611686018427387904 := by unfold dimLimit at hwl; omega
  have hh2 : (h : Int) < 4611686018427387904 := by unfold dimLimit at hhl; omega
  have ha : g.alive x0 y0 = true := (hone x0 y0 hx0 hy0).mpr ⟨rfl, rfl⟩
  refine ⟨ruleGrid g w h, nextGeneration_eq hg hw hw2 hh hh2, ?_, ?_⟩
  · intro hc
    rw [ruleGrid_alive g w h x0 y0 hx0 hy0, ha, singleCell_count w h g x0 y0 hx0 hy0 hone]
    rcases hc with ⟨h1, h2⟩ | ⟨h1, h2⟩
    · have e1 : ¬ (w = 1 ∧ h = 1) := by omega
      have e2 : ¬ (w = 1 ∨ h = 1) := by omega
      rw [if_neg e1, if_neg e2]; rfl
    · rw [if_pos ⟨h1, h2⟩]; rfl
  · intro hc
    rw [ruleGrid_alive g w h x0 y0 hx0 hy0, ha, singleCell_count w h g x0 y0 hx0 hy0 hone]
    have e1 : ¬ (w = 1 ∧ h = 1) := by omega
    have e2 : w = 1 ∨ h = 1 := by omega
    rw [if_neg e1, if_pos e2]; rfl

/-- Witness of the amended C9 on a 2 by 2 grid. -/
theorem singleCell_fate_witness :
    ∃ next, nextGeneration [[false, false], [false, true]] (2 : Nat) (2 : Nat) = .ok next ∧
      ((2 ≤ 2 ∧ 2 ≤ 2) ∨ (2 = 1 ∧ 2 = 1) → next.alive 1 1 = false) ∧
      ((2 = 1 ∧ 2 ≤ 2) ∨ (2 ≤ 2 ∧ 2 = 1) → next.alive 1 1 = true) :=
  singleCell_fate 2 2 [[false, false], [false, true]] 1 1 (by decide) (by decide) (by decide)
    (by decide) (by unfold Grid.HasShape; decide) (by decide) (by decide)
    (by intro x y hx hy; interval_cases x <;> interval_cases y <;> decide)

theorem grid_ext {g1 g2 : Grid} {w h : Nat} (h1 : g1.HasShape w h) (h2 : g2.HasShape w h)
    (he : ∀ x y, x < w → y < h → g1.alive x y = g2.alive x y) : g1 = g2 := by
  apply List.ext_getElem
  · rw [h1.1, h2.1]
  · intro y hy1 hy2
    have hy : y < h := by rw [← h1.1]; exact hy1
    have r1 := h1.row_length hy
    have r2 := h2.row_length hy
    rw [List.getD_eq_getElem _ _ hy1] at r1
    rw [List.getD_eq_getElem _ _ hy2] at r2
    apply List.ext_getElem
    · rw [r1, r2]
    · intro x hx1 hx2
      have := he x y (by omega) hy
      unfold Grid.alive at this
      rw [List.getD_eq_getElem _ _ hy1, List.getD_eq_getElem _ _ hy2,
        List.getD_eq_getElem _ _ hx1, List.getD_eq_getElem _ _ hx2] at this
      exact this

theorem block_axis (n x x0 : Nat) (hn : 4 ≤ n) (hx0 : x0 + 1 < n) :
    ((x = x0 ∨ x = x0 + 1) →
      ((prevCoord n x = x0 ∨ prevCoord n x = x0 + 1) ↔
        ¬ (nextCoord n x = x0 ∨ nextCoord n x = x0 + 1))) ∧
    (¬ (x = x0 ∨ x = x0 + 1) →
      ¬ ((prevCoord n x = x0 ∨ prevCoord n x = x0 + 1) ∧
        (nextCoord n x = x0 ∨ nextCoord n x = x0 + 1))) := by
  have hp : (x = 0 ∧ prevCoord n x = n - 1) ∨ (x ≠ 0 ∧ prevCoord n x = x - 1) := by
    unfold prevCoord
    by_cases h0 : x = 0
    · exact Or.inl ⟨h0, if_pos h0⟩
    · exact Or.inr ⟨h0, if_neg h0⟩
  have hq : (x + 1 = n ∧ nextCoord n x = 0) ∨ (x + 1 ≠ n ∧ nextCoord n x = x + 1) := by
    unfold nextCoord
    by_cases h0 : x + 1 = n
    · exact Or.inl ⟨h0, if_pos h0⟩
    · exact Or.inr ⟨h0, if_neg h0⟩
  generalize prevCoord n x = p at hp ⊢
  generalize nextCoord n x = q at hq ⊢
  omega

theorem block_rule (px cx nx py cy ny : Bool)
    (hx1 : cx = true → (px = true ↔ ¬ nx = true))
    (hx2 : ¬ cx = true → ¬ (px = true ∧ nx = true))
    (hy1 : cy = true → (py = true ↔ ¬ ny = true))
    (hy2 : ¬ cy = true → ¬ (py = true ∧ ny = true)) :
    rule (cx && cy) ((b2n (px && py) + b2n (cx && py) + b2n (nx && py) + b2n (px && cy)
      + b2n (nx && cy) + b2n (px && ny) + b2n (cx && ny) + b2n (nx && ny) : Nat) : Int)
      = (cx && cy) := by
  revert hx1 hx2 hy1 hy2
  cases px <;> cases cx <;> cases nx <;> cases py <;> cases cy <;> cases ny <;> decide

/-- C8: for `w, h >= 4` and a grid of `h` rows by `w` columns whose live cells
are exactly the four cells of one 2 by 2 block with corner `(x0, y0)`,
`x0 + 1 < w`, `y0 + 1 < h`, `nextGeneration` returns the grid itself.  The
dimensions are slice lengths, below `dimLimit`. -/
theorem block_still_life (w h : Nat) (g : Grid) (x0 y0 : Nat) (hw : 4 ≤ w) (hh : 4 ≤ h)
    (hwl : w < dimLimit) (hhl : h < dimLimit) (hg : g.HasShape w h)
    (hx0 : x0 + 1 < w) (hy0 : y0 + 1 < h) (hb : g.IsBlock w h x0 y0) :
    nextGeneration g w h = .ok g := by
  have hw2 : (w : Int) < 4611686018427387904 := by unfold dimLimit at hwl; omega
  have hh2 : (h : Int) < 4611686018427387904 := by unfold dimLimit at hhl; omega
  rw [nextGeneration_eq hg (by omega) hw2 (by omega) hh2]
  congr 1
  apply grid_ext (ruleGrid_shape g w h) hg
  intro x y hx hy
  have hcell : ∀ x y, x < w → y < h →
      g.alive x y = (decide (x = x0 ∨ x = x0 + 1) && decide (y = y0 ∨ y = y0 + 1)) := by
    intro x y hx hy
    have := hb x y hx hy
    cases hc : g.alive x y <;> simp_all
  have px := prevCoord_lt w x hx
  have nx := nextCoord_lt w x hx
  have py := prevCoord_lt h y hy
  have ny := nextCoord_lt h y hy
  rw [ruleGrid_alive g w h x y hx hy, liveNeighbors_coords g w h x y hx hy,
    hcell _ _ px py, hcell _ _ hx py, hcell _ _ nx py,
    hcell _ _ px hy, hcell _ _ nx hy, hcell _ _ px ny, hcell _ _ hx ny, hcell _ _ nx ny,
    hcell _ _ hx hy]
  obtain ⟨ax1, ax2⟩ := block_axis w x x0 hw hx0
  obtain ⟨ay1, ay2⟩ := block_axis h y y0 hh hy0
  apply block_rule
  · simpa using ax1
  · simpa using ax2
  · simpa using ay1
  · simpa using ay2

/-- Witness of C8 on a 4 by 4 grid with the block at (1, 2). -/
theorem block_still_life_witness :
    nextGeneration
      [[false, false, false, false], [false, false, false, false],
       [false, true, true, false], [false, true, true, false]] (4 : Nat) (4 : Nat)
      = .ok [[false, false, false, false], [false, false, false, false],
       [false, true, true, false], [false, true, true, false]] :=
  block_still_life 4 4 _ 1 2 (by decide) (by decide) (by decide) (by decide)
    (by unfold Grid.HasShape; decide) (by decide) (by decide)
    (by intro x y hx hy; interval_cases x <;> interval_cases y <;> decide)

/-! ## Autoplay -/

theorem App_StartAutoPlay_idle (a : App) (intervalMs : Int) (hp : a.playing = false) :
    a.StartAutoPlay intervalMs
      = .ok ({ a with playing := true, stopChan := some a.chans.length,
                      chans := a.chans ++ [false] }, some (max intervalMs 50)) := by
  unfold App.StartAutoPlay
  rw [hp]
  have : (if intervalMs < 50 then 50 else intervalMs) = max intervalMs 50 := by
    split <;> omega
  simp only [Bool.false_eq_true, if_false, this]
  rfl

theorem App_StartAutoPlay_playing (a : App) (intervalMs : Int) (hp : a.playing = true) :
    a.StartAutoPlay intervalMs = .ok (a, none) := by
  unfold App.StartAutoPlay
  rw [hp]
  rfl

/-- C11: `StartAutoPlay(intervalMs)` leaves grid and generation unchanged; on
an Idle controller it sets `playing`, makes a fresh open stop channel and starts
exactly one goroutine; on a Playing controller it changes nothing and starts no
goroutine. -/
theorem StartAutoPlay_spec (s : Sys) (intervalMs : Int) :
    ∃ s1, s.StartAutoPlay intervalMs = .ok s1 ∧
      s1.app.heap = s.app.heap ∧ s1.app.grid = s.app.grid ∧ s1.app.cells = s.app.cells ∧
      s1.app.gen = s.app.gen ∧
      (s.app.playing = false →
        s1.app.playing = true ∧ s1.app.stopChan = some s.app.chans.length ∧
        s1.app.chans = s.app.chans ++ [false] ∧
        s1.app.chans[s.app.chans.length]? = some false ∧
        ∃ ms, s1.tasks = s.tasks ++ [Task.spawned ms]) ∧
      (s.app.playing = true → s1 = s) := by
  cases hp : s.app.playing with
  | false =>
    refine ⟨{ app := { s.app with playing := true, stopChan := some s.app.chans.length,
                                  chans := s.app.chans ++ [false] },
              tasks := s.tasks ++ [Task.spawned (max intervalMs 50)] }, ?_, rfl, rfl, rfl, rfl,
      ?_, by intro h; exact absurd h (by decide)⟩
    · unfold Sys.StartAutoPlay
      rw [App_StartAutoPlay_idle _ _ hp]
      rfl
    · intro _
      exact ⟨rfl, rfl, rfl, by simp, _, rfl⟩
  | true =>
    refine ⟨s, ?_, rfl, rfl, rfl, rfl, by intro h; exact absurd h (by decide), fun _ => rfl⟩
    unfold Sys.StartAutoPlay
    rw [App_StartAutoPlay_playing _ _ hp]
    rfl

/-- Witness of C11 on an Idle controller. -/
theorem StartAutoPlay_spec_witness :
    ∃ s1, idleSys.StartAutoPlay 10 = .ok s1 ∧
      s1.app.heap = blinkerApp.heap ∧ s1.app.grid = blinkerApp.grid ∧
      s1.app.cells = blinkerApp.cells ∧ s1.app.gen = blinkerApp.gen ∧
      (blinkerApp.playing = false →
        s1.app.playing = true ∧ s1.app.stopChan = some blinkerApp.chans.length ∧
        s1.app.chans = blinkerApp.chans ++ [false] ∧
        s1.app.chans[blinkerApp.chans.length]? = some false ∧
        ∃ ms, s1.tasks = [] ++ [Task.spawned ms]) ∧
      (blinkerApp.playing = true → s1 = idleSys) :=
  StartAutoPlay_spec idleSys 10

theorem Sys_StartAutoPlay_idle (s : Sys) (intervalMs : Int) (hp : s.app.playing = false) :
    s.StartAutoPlay intervalMs
      = .ok { app := { s.app with playing := true, stopChan := some s.app.chans.length,
                                  chans := s.app.chans ++ [false] },
              tasks := s.tasks ++ [Task.spawned (max intervalMs 50)] } := by
  unfold Sys.StartAutoPlay
  rw [App_StartAutoPlay_idle _ _ hp]
  rfl

theorem launch_spawned (s : Sys) (i : Nat) (ms : Int) (h : s.tasks[i]? = some (Task.spawned ms)) :
    s.taskStep i TaskOp.launch
      = some (do
          let d ← newTicker (tickerDuration ms)
          pure { s with tasks := s.tasks.set i (Task.atLoop d) }) := by
  unfold Sys.taskStep
  rw [h]

/-- C12, refuted as stated: for `intervalMs = 9223372036855` the product
`time.Duration(intervalMs) * time.Millisecond` wraps to a negative number of
nanoseconds, which is not `max(intervalMs, 50)` milliseconds, and the goroutine
panics in `time.NewTicker`. -/
theorem StartAutoPlay_period_wraps :
    ∃ s1, idleSys.StartAutoPlay 9223372036855 = .ok s1 ∧
      s1.tasks = [Task.spawned 9223372036855] ∧
      tickerDuration 9223372036855 = -9223372036854551616 ∧
      tickerDuration 9223372036855 ≠ max 9223372036855 50 * millisecond ∧
      s1.taskStep 0 TaskOp.launch = some (.error .nonPositiveInterval) := by
  refine ⟨_, Sys_StartAutoPlay_idle _ _ rfl, by decide, by decide, by decide, by decide⟩

/-- C12, amended: for every `intervalMs` up to 9223372036854 (the largest
number of milliseconds an `int64` of nanoseconds holds) `StartAutoPlay` on an
Idle controller starts a goroutine whose ticker gets the period
`max(intervalMs, 50)` milliseconds; every value below 50, zero and negative
ones included, gives the same state and goroutine as 50, so `StartAutoPlay(10)`
is `StartAutoPlay(50)`. -/
theorem StartAutoPlay_period (s : Sys) (intervalMs : Int) (hp : s.app.playing = false)
    (hhi : intervalMs ≤ 9223372036854) :
    (∃ s1 s2, s.StartAutoPlay intervalMs = .ok s1 ∧
      s1.tasks = s.tasks ++ [Task.spawned (max intervalMs 50)] ∧
      s1.taskStep s.tasks.length TaskOp.launch = some (.ok s2) ∧
      s2.tasks = s.tasks ++ [Task.atLoop (max intervalMs 50 * millisecond)] ∧
      s2.app = s1.app) ∧
    (intervalMs < 50 → s.StartAutoPlay intervalMs = s.StartAutoPlay 50) ∧
    s.StartAutoPlay 10 = s.StartAutoPlay 50 := by
  have hd : newTicker (tickerDuration (max intervalMs 50))
      = .ok (max intervalMs 50 * millisecond) := by
    have hd : tickerDuration (max intervalMs 50) = max intervalMs 50 * millisecond := by
      unfold tickerDuration mulInt millisecond
      apply wrapInt_of_range <;> omega
    rw [hd]
    unfold newTicker millisecond
    rw [if_neg (by omega)]
  obtain ⟨s1, h1, ht⟩ : ∃ s1, s.StartAutoPlay intervalMs = .ok s1 ∧
      s1.tasks = s.tasks ++ [Task.spawned (max intervalMs 50)] :=
    ⟨_, Sys_StartAutoPlay_idle s intervalMs hp, rfl⟩
  refine ⟨⟨s1, { app := s1.app, tasks := s.tasks ++ [Task.atLoop (max intervalMs 50 * millisecond)] },
    h1, ht, ?_, rfl, rfl⟩, ?_, ?_⟩
  · rw [launch_spawned _ _ (max intervalMs 50) (by rw [ht]; simp), hd, ht]
    simp [bind, Except.bind, pure, Except.pure]
  · intro h
    rw [Sys_StartAutoPlay_idle s intervalMs hp, Sys_StartAutoPlay_idle s 50 hp]
    have : max intervalMs 50 = max 50 50 := by omega
    rw [this]
  · rw [Sys_StartAutoPlay_idle s 10 hp, Sys_StartAutoPlay_idle s 50 hp]
    rfl

/-- Witness of the amended C12 at `intervalMs = 10`. -/
theorem StartAutoPlay_period_witness :
    (∃ s1 s2, idleSys.StartAutoPlay 10 = .ok s1 ∧
      s1.tasks = idleSys.tasks ++ [Task.spawned (max 10 50)] ∧
      s1.taskStep idleSys.tasks.length TaskOp.launch = some (.ok s2) ∧
      s2.tasks = idleSys.tasks ++ [Task.atLoop (max 10 50 * millisecond)] ∧
      s2.app = s1.app) ∧
    ((10 : Int) < 50 → idleSys.StartAutoPlay 10 = idleSys.StartAutoPlay 50) ∧
    idleSys.StartAutoPlay 10 = idleSys.StartAutoPlay 50 :=
  StartAutoPlay_period idleSys 10 rfl (by decide)

/-! ## The random grid -/

theorem andInt_mask (v : Int) :
    andInt v 9223372036854775807 = v % 9223372036854775808 := by
  unfold andInt
  have hm : ((9223372036854775807 : Int) % 18446744073709551616).toNat = 2 ^ 63 - 1 := by decide
  rw [hm, Nat.and_pow_two_sub_one_eq_mod]
  have h2 : (2 : Nat) ^ 63 = 9223372036854775808 := by norm_num
  rw [h2]
  unfold wrapInt
  omega

theorem nextSeed_eq (s : Int) :
    nextSeed s = (s * 6364136223846793005 + 1442695040888963407) % 9223372036854775808 := by
  unfold nextSeed
  rw [andInt_mask]
  unfold addInt mulInt wrapInt
  omega

theorem lcg_step (s0 : Int) (k : Nat) :
    lcg s0 (k + 1)
      = (lcg s0 k * 6364136223846793005 + 1442695040888963407) % 9223372036854775808 := by
  rw [lcg]

theorem lcg_succ (s0 : Int) (k : Nat) : lcg s0 (k + 1) = nextSeed (lcg s0 k) := by
  rw [nextSeed_eq, lcg_step]

theorem lcg_shift (s0 : Int) (k : Nat) : lcg (nextSeed s0) k = lcg s0 (k + 1) := by
  induction k with
  | zero => rw [lcg_succ]; rfl
  | succ n ih => rw [lcg_succ, ih, ← lcg_succ]

theorem lcg_add (s0 : Int) (m k : Nat) : lcg (lcg s0 m) k = lcg s0 (m + k) := by
  induction k with
  | zero => rfl
  | succ k ih =>
    show lcg (lcg s0 m) (k + 1) = lcg s0 (m + k + 1)
    rw [lcg_succ, ih, ← lcg_succ]

theorem lcg_range (s0 : Int) (k : Nat) :
    0 ≤ lcg s0 (k + 1) ∧ lcg s0 (k + 1) < 9223372036854775808 := by
  rw [lcg_step]
  omega

theorem cell_test (s0 : Int) (k : Nat) :
    (Int.tmod (lcg s0 (k + 1)) 3 == 0) = decide (lcg s0 (k + 1) % 3 = 0) := by
  rw [Int.tmod_eq_emod (lcg_range s0 k).1 (by decide)]
  by_cases h : lcg s0 (k + 1) % 3 = 0 <;> simp [h]

theorem randomRow_eq (n : Nat) (s0 : Int) :
    randomRow n s0
      = ((List.range n).map fun x => decide (lcg s0 (x + 1) % 3 = 0), lcg s0 n) := by
  induction n generalizing s0 with
  | zero => rfl
  | succ n ih =>
    show ((Int.tmod (nextSeed s0) 3 == 0) :: (randomRow n (nextSeed s0)).1,
      (randomRow n (nextSeed s0)).2) = _
    rw [ih, List.range_succ_eq_map, List.map_cons, List.map_map]
    have e0 : nextSeed s0 = lcg s0 (0 + 1) := (lcg_succ s0 0).symm
    simp only [lcg_shift]
    rw [e0, cell_test]
    rfl

theorem randomRows_eq (w n : Nat) (s0 : Int) :
    randomRows (w : Int) n s0
      = .ok ((List.range n).map fun y => (List.range w).map fun x =>
          decide (lcg s0 (y * w + x + 1) % 3 = 0)) := by
  induction n generalizing s0 with
  | zero => rfl
  | succ n ih =>
    have hl : makeLen (w : Int) = .ok w := by simp [makeLen]
    unfold randomRows
    rw [hl]
    simp only [bind, Except.bind, pure, Except.pure]
    rw [randomRow_eq, ih]
    simp only
    rw [List.range_succ_eq_map, List.map_cons, List.map_map]
    congr 2
    · simp
    · apply List.map_congr_left
      intro y _
      apply List.map_congr_left
      intro x _
      simp only [Function.comp, lcg_add]
      congr 3
      have hidx : w + (y * w + x + 1) = y.succ * w + x + 1 := by
        rw [Nat.succ_mul]; omega
      rw [hidx]

theorem shiftGrid_shape (g : Grid) (w h : Nat) (a b : Int) :
    (shiftGrid g w h a b).HasShape w h := by
  constructor
  · simp [shiftGrid]
  · intro row hrow
    simp only [shiftGrid, List.mem_map] at hrow
    obtain ⟨y, _, rfl⟩ := hrow
    simp

theorem shiftGrid_alive (g : Grid) (w h : Nat) (a b : Int) (x y : Nat) (hx : x < w)
    (hy : y < h) :
    (shiftGrid g w h a b).alive x y
      = g.alive (((x : Int) + a) % (w : Int)).toNat (((y : Int) + b) % (h : Int)).toNat := by
  simp [shiftGrid, Grid.alive, List.getD, hx, hy, List.getElem?_range]

theorem shift_coord (n x : Nat) (a d : Int) (hn : 0 < n) :
    (((((x : Int) + d) % (n : Int)).toNat : Int) + a) % (n : Int)
      = (((((x : Int) + a) % (n : Int)).toNat : Int) + d) % (n : Int) := by
  have hpos : (0 : Int) < n := by omega
  rw [Int.toNat_of_nonneg (Int.emod_nonneg _ (ne_of_gt hpos)),
    Int.toNat_of_nonneg (Int.emod_nonneg _ (ne_of_gt hpos)),
    Int.emod_add_emod, Int.emod_add_emod]
  congr 1
  omega

theorem liveNeighbors_shift (g : Grid) (w h : Nat) (a b : Int) (x y : Nat) (hw : 0 < w)
    (hh : 0 < h) :
    (shiftGrid g w h a b).liveNeighbors w h x y
      = g.liveNeighbors w h (((x : Int) + a) % (w : Int)).toNat
          (((y : Int) + b) % (h : Int)).toNat := by
  unfold Grid.liveNeighbors
  congr 1
  apply Finset.filter_congr
  intro d _
  have hr := neighbor_in_range w h x y d hw hh
  unfold Grid.neighbor
  rw [shiftGrid_alive g w h a b _ _ hr.1 hr.2, shift_coord w x a d.1 hw,
    shift_coord h y b d.2 hh]

/-- C20: `nextGeneration` commutes with toroidal translation.  For a grid `g`
of `h` rows by `w` columns and any integer shift `(a, b)`,
`nextGeneration(shift g) = shift(nextGeneration g)`, and `countNeighbors` of
`shift g` at an in-range `(x, y)` is `countNeighbors` of `g` at
`((x+a) mod w, (y+b) mod h)`.  The dimensions are slice lengths, below
`dimLimit`. -/
theorem nextGeneration_shift (w h : Nat) (g : Grid) (a b : Int) (hw : 1 ≤ w) (hh : 1 ≤ h)
    (hwl : w < dimLimit) (hhl : h < dimLimit) (hg : g.HasShape w h) :
    (∃ n1 n2, nextGeneration (shiftGrid g w h a b) w h = .ok n1 ∧
      nextGeneration g w h = .ok n2 ∧ n1 = shiftGrid n2 w h a b) ∧
    ∀ x y : Nat, x < w → y < h →
      ∃ n, countNeighbors (shiftGrid g w h a b) x y w h = .ok n ∧
        countNeighbors g (((x : Int) + a) % (w : Int)) (((y : Int) + b) % (h : Int)) w h
          = .ok n := by
  have hw2 : (w : Int) < 4611686018427387904 := by unfold dimLimit at hwl; omega
  have hh2 : (h : Int) < 4611686018427387904 := by unfold dimLimit at hhl; omega
  have hs := shiftGrid_shape g w h a b
  have hwpos : (0 : Int) < w := by omega
  have hhpos : (0 : Int) < h := by omega
  constructor
  · refine ⟨_, _, nextGeneration_eq hs hw hw2 hh hh2, nextGeneration_eq hg hw hw2 hh hh2, ?_⟩
    apply grid_ext (ruleGrid_shape _ w h) (shiftGrid_shape _ w h a b)
    intro x y hx hy
    have hr : (((x : Int) + a) % (w : Int)).toNat < w ∧ (((y : Int) + b) % (h : Int)).toNat < h :=
      neighbor_in_range w h x y (a, b) hw hh
    rw [ruleGrid_alive (shiftGrid g w h a b) w h x y hx hy,
      shiftGrid_alive (ruleGrid g w h) w h a b x y hx hy,
      ruleGrid_alive g w h _ _ hr.1 hr.2, shiftGrid_alive g w h a b x y hx hy,
      liveNeighbors_shift g w h a b x y hw hh]
  · intro x y hx hy
    have hr : (((x : Int) + a) % (w : Int)).toNat < w ∧ (((y : Int) + b) % (h : Int)).toNat < h :=
      neighbor_in_range w h x y (a, b) hw hh
    refine ⟨_, countNeighbors_eq hs x y hw hw2 hh hh2 hx hy, ?_⟩
    have := countNeighbors_eq hg _ _ hw hw2 hh hh2 hr.1 hr.2
    rw [Int.toNat_of_nonneg (Int.emod_nonneg _ (ne_of_gt hwpos)),
      Int.toNat_of_nonneg (Int.emod_nonneg _ (ne_of_gt hhpos))] at this
    rw [this, liveNeighbors_shift g w h a b x y hw hh]

/-- Witness of C20 on the 3 by 3 vertical blinker shifted by (1, -2). -/
theorem nextGeneration_shift_witness :
    (∃ n1 n2, nextGeneration (shiftGrid blinkerVertical 3 3 1 (-2)) (3 : Nat) (3 : Nat) = .ok n1 ∧
      nextGeneration blinkerVertical (3 : Nat) (3 : Nat) = .ok n2 ∧
      n1 = shiftGrid n2 3 3 1 (-2)) ∧
    ∀ x y : Nat, x < 3 → y < 3 →
      ∃ n, countNeighbors (shiftGrid blinkerVertical 3 3 1 (-2)) x y (3 : Nat) (3 : Nat)
          = .ok n ∧
        countNeighbors blinkerVertical (((x : Int) + 1) % ((3 : Nat) : Int))
          (((y : Int) + (-2)) % ((3 : Nat) : Int)) (3 : Nat) (3 : Nat) = .ok n :=
  nextGeneration_shift 3 3 blinkerVertical 1 (-2) (by decide) (by decide) (by decide)
    (by decide) (by unfold Grid.HasShape; decide)

/-! ## Invariants of the reachable states -/

theorem Inv_GridOk {a : App} (h : a.Inv) : a.GridOk := by
  obtain ⟨hw, hh, hg, -⟩ := h
  unfold App.GridOk
  rw [hw, hh]
  exact ⟨by decide, by decide, by decide, by decide, hg⟩

theorem ToggleCell_inv (a : App) (x y : Int) (h : a.Inv) :
    ∃ a1 s, a.ToggleCell x y = .ok (a1, s) ∧ a1.Inv ∧ a1.gen = a.gen ∧
      a1.chans = a.chans ∧ a1.playing = a.playing ∧ a1.stopChan = a.stopChan := by
  obtain ⟨hw, hh, hg, hc⟩ := h
  by_cases hcond : x ≥ 0 ∧ x < a.width ∧ y ≥ 0 ∧ y < a.height
  · obtain ⟨hx0, hx1, hy0, hy1⟩ := hcond
    rw [hw] at hx1
    rw [hh] at hy1
    have hyl : y.toNat < a.cells.length := by rw [hg.1]; omega
    have hxl : x.toNat < (a.cells.getD y.toNat []).length := by
      rw [hg.row_length (y := y.toNat) (by omega)]; omega
    have hv : a.grid < a.heap.length := grid_valid (by
      intro h0; rw [h0] at hyl; exact absurd hyl (by simp))
    have e := ToggleCell_ok a x.toNat y.toNat (by rw [hw]; omega) (by rw [hh]; omega) hyl hxl
    rw [Int.toNat_of_nonneg hx0, Int.toNat_of_nonneg hy0] at e
    refine ⟨_, _, e, ⟨hw, hh, ?_, hc⟩, rfl, rfl, rfl, rfl⟩
    rw [poke_cells hv]
    exact set_shape hg _ _ _ (by omega)
  · refine ⟨a, a.snapshot, ?_, ⟨hw, hh, hg, hc⟩, rfl, rfl, rfl, rfl⟩
    unfold App.ToggleCell
    rw [if_neg hcond]
    rfl

theorem SetCell_inv (a : App) (x y : Int) (alive : Bool) (h : a.Inv) :
    ∃ a1, a.SetCell x y alive = .ok a1 ∧ a1.Inv ∧ a1.gen = a.gen ∧
      a1.chans = a.chans ∧ a1.playing = a.playing ∧ a1.stopChan = a.stopChan := by
  obtain ⟨hw, hh, hg, hc⟩ := h
  by_cases hcond : x ≥ 0 ∧ x < a.width ∧ y ≥ 0 ∧ y < a.height
  · obtain ⟨hx0, hx1, hy0, hy1⟩ := hcond
    rw [hw] at hx1
    rw [hh] at hy1
    have hyl : y.toNat < a.cells.length := by rw [hg.1]; omega
    have hxl : x.toNat < (a.cells.getD y.toNat []).length := by
      rw [hg.row_length (y := y.toNat) (by omega)]; omega
    have hv : a.grid < a.heap.length := grid_valid (by
      intro h0; rw [h0] at hyl; exact absurd hyl (by simp))
    have e := writeCell_ok a x.toNat y.toNat alive hyl hxl
    rw [Int.toNat_of_nonneg hx0, Int.toNat_of_nonneg hy0] at e
    refine ⟨{ a.poke x.toNat y.toNat alive with
        events := (a.poke x.toNat y.toNat alive).events ++ [Event.cellUpdated x y alive] },
      ?_, ⟨hw, hh, ?_, hc⟩, rfl, rfl, rfl, rfl⟩
    · unfold App.SetCell
      rw [if_pos ⟨hx0, by rw [hw]; exact hx1, hy0, by rw [hh]; exact hy1⟩, e]
      rfl
    · have : App.cells { a.poke x.toNat y.toNat alive with
          events := (a.poke x.toNat y.toNat alive).events ++ [Event.cellUpdated x y alive] }
          = (a.poke x.toNat y.toNat alive).cells := rfl
      rw [this, poke_cells hv]
      exact set_shape hg _ _ _ (by omega)
  · refine ⟨{ a with events := a.events ++ [Event.cellUpdated x y alive] }, ?_,
      ⟨hw, hh, hg, hc⟩, rfl, rfl, rfl, rfl⟩
    unfold App.SetCell
    rw [if_neg hcond]
    rfl

theorem Step_inv (a : App) (h : a.Inv) :
    ∃ a1 s, a.Step = .ok (a1, s) ∧ a1.Inv ∧ a1.gen = addInt a.gen 1 ∧
      a1.chans = a.chans ∧ a1.playing = a.playing ∧ a1.stopChan = a.stopChan := by
  obtain ⟨a1, e1, c1, g1, p1, w1, h1, -, -, ch1, st1, -⟩ := Step_ok a _ (GridOk_eval (Inv_GridOk h))
  obtain ⟨hw, hh, hg, hc⟩ := h
  refine ⟨a1, _, e1, ⟨w1.trans hw, h1.trans hh, ?_, ?_⟩, g1, ch1, p1, st1⟩
  · rw [c1, hw, hh]
    exact ruleGrid_shape _ 40 30
  · intro hp
    rw [p1] at hp
    rw [st1, ch1]
    exact hc hp

theorem tick_inv (a : App) (h : a.Inv) :
    ∃ a1, a.tick = .ok a1 ∧ a1.Inv ∧ a1.gen = addInt a.gen 1 ∧
      a1.chans = a.chans ∧ a1.playing = a.playing ∧ a1.stopChan = a.stopChan := by
  have hn := GridOk_eval (Inv_GridOk h)
  obtain ⟨hw, hh, hg, hc⟩ := h
  refine ⟨{ a.assignNew (ruleGrid a.cells a.width.toNat a.height.toNat) with
      gen := addInt a.gen 1,
      events := a.events ++ [Event.gameTick a.heap.length (addInt a.gen 1) a.playing] }, ?_,
    ⟨hw, hh, ?_, hc⟩, rfl, rfl, rfl, rfl⟩
  · unfold App.tick
    rw [hn]
    rfl
  · have : App.cells { a.assignNew (ruleGrid a.cells a.width.toNat a.height.toNat) with
        gen := addInt a.gen 1,
        events := a.events ++ [Event.gameTick a.heap.length (addInt a.gen 1) a.playing] }
        = ruleGrid a.cells a.width.toNat a.height.toNat := by
      simp [App.assignNew, App.cells, App.deref]
    rw [this, hw, hh]
    exact ruleGrid_shape _ 40 30

theorem cancel_inv (a : App) (h : a.Inv) :
    ∃ a1, a.cancel = .ok a1 ∧ a1.Inv ∧ a1.playing = false ∧ a1.gen = a.gen ∧
      a1.width = a.width ∧ a1.height = a.height ∧ (a.playing = false → a1 = a) := by
  obtain ⟨hw, hh, hg, hc⟩ := h
  obtain ⟨b, e, p, hhp, hgr, hgn, w1, h1, -, -, hidle⟩ := cancel_ok a hc
  refine ⟨b, e, ⟨w1.trans hw, h1.trans hh, ?_, ?_⟩, p, hgn, w1, h1, hidle⟩
  · have : b.cells = a.cells := by simp [App.cells, App.deref, hhp, hgr]
    rw [this]; exact hg
  · intro hp
    rw [p] at hp
    exact absurd hp (by decide)

theorem StopAutoPlay_inv (a : App) (h : a.Inv) :
    ∃ a1 s, a.StopAutoPlay = .ok (a1, s) ∧ a1.Inv ∧ a1.gen = a.gen ∧ a1.playing = false ∧
      (a.playing = false → a1.chans = a.chans) := by
  obtain ⟨b, e, hb, p, hgn, -, -, hidle⟩ := cancel_inv a h
  refine ⟨b, b.snapshot, ?_, hb, hgn, p, fun hp => by rw [hidle hp]⟩
  unfold App.StopAutoPlay
  rw [e]
  rfl

theorem assignNew_inv (b : App) (g : Grid) (hw : b.width = 40) (hh : b.height = 30)
    (hp : b.playing = false) (hg : g.HasShape 40 30) :
    App.Inv { b.assignNew g with gen := 0 } := by
  refine ⟨hw, hh, ?_, ?_⟩
  · rw [assignNew_gen_cells]; exact hg
  · intro hp2
    have : App.playing { b.assignNew g with gen := 0 } = b.playing := rfl
    rw [this, hp] at hp2
    exact absurd hp2 (by decide)

theorem Clear_inv (a : App) (h : a.Inv) :
    ∃ a1 s, a.Clear = .ok (a1, s) ∧ a1.Inv ∧ a1.gen = 0 ∧
      (a.playing = false → a1.chans = a.chans) := by
  obtain ⟨b, e, ⟨hw, hh, -, -⟩, p, -, -, -, hidle⟩ := cancel_inv a h
  have hm := makeGrid_eq b.width b.height (by omega) (by omega)
  refine ⟨{ b.assignNew (List.replicate b.height.toNat (List.replicate b.width.toNat false))
      with gen := 0 }, App.snapshot { b.assignNew (List.replicate b.height.toNat
        (List.replicate b.width.toNat false)) with gen := 0 }, ?_, ?_, rfl,
    fun hp => by rw [← hidle hp]; rfl⟩
  · unfold App.Clear
    rw [e]
    show (makeGrid b.width b.height >>= _) = _
    rw [hm]
    rfl
  · apply assignNew_inv b _ hw hh p
    rw [hw, hh]
    exact replicate_shape 40 30

theorem randomGrid_shape (seed : Int) (w h : Nat) :
    ∃ g, randomGrid seed w h = .ok g ∧ g.HasShape w h := by
  have hl : makeLen (h : Int) = .ok h := by simp [makeLen]
  refine ⟨(List.range h).map fun y => (List.range w).map fun x =>
    decide (lcg seed (y * w + x + 1) % 3 = 0), ?_, ?_⟩
  · unfold randomGrid
    rw [hl]
    exact randomRows_eq w h seed
  · constructor
    · simp
    · intro row hrow
      simp only [List.mem_map] at hrow
      obtain ⟨y, _, rfl⟩ := hrow
      simp

theorem Randomize_inv (a : App) (seed : Int) (h : a.Inv) :
    ∃ a1 s, a.Randomize seed = .ok (a1, s) ∧ a1.Inv ∧ a1.gen = 0 ∧
      (a.playing = false → a1.chans = a.chans) := by
  obtain ⟨b, e, ⟨hw, hh, -, -⟩, p, -, -, -, hidle⟩ := cancel_inv a h
  obtain ⟨g, hr, hs⟩ := randomGrid_shape seed 40 30
  refine ⟨{ b.assignNew g with gen := 0 }, App.snapshot { b.assignNew g with gen := 0 },
    ?_, assignNew_inv b g hw hh p hs, rfl, fun hp => by rw [← hidle hp]; rfl⟩
  unfold App.Randomize
  rw [e]
  show (randomGrid seed b.width b.height >>= _) = _
  rw [hw, hh]
  have : randomGrid seed 40 30 = .ok g := hr
  rw [this]
  rfl

theorem StartAutoPlay_inv (s : Sys) (intervalMs : Int) (h : s.app.Inv) :
    ∃ s1, s.StartAutoPlay intervalMs = .ok s1 ∧ s1.app.Inv ∧ s1.app.gen = s.app.gen := by
  obtain ⟨hw, hh, hg, hc⟩ := h
  cases hp : s.app.playing with
  | false =>
    refine ⟨_, Sys_StartAutoPlay_idle s intervalMs hp, ⟨hw, hh, hg, ?_⟩, rfl⟩
    intro _
    exact ⟨s.app.chans.length, rfl, by simp⟩
  | true =>
    refine ⟨s, ?_, ⟨hw, hh, hg, hc⟩, rfl⟩
    unfold Sys.StartAutoPlay
    rw [App_StartAutoPlay_playing _ _ hp]
    rfl

theorem taskStep_inv (s : Sys) (i : Nat) (top : TaskOp) (h : s.app.Inv) :
    s.taskStep i top = none ∨ s.taskStep i top = some (.error .nonPositiveInterval) ∨
    ∃ s1, s.taskStep i top = some (.ok s1) ∧ s1.app.Inv ∧
      s1.app.gen = genStep s.app.gen (Op.task i top) ∧
      s1.app.width = s.app.width ∧ s1.app.height = s.app.height := by
  unfold Sys.taskStep
  split
  · rename_i ms _
    by_cases hd : tickerDuration ms ≤ 0
    · right; left
      simp [newTicker, hd, bind, Except.bind]
    · right; right
      exact ⟨{ s with tasks := s.tasks.set i (Task.atLoop (tickerDuration ms)) },
        by simp only [newTicker, hd, if_false]; rfl, h, rfl, rfl, rfl⟩
  · rename_i d _
    right; right
    exact ⟨{ s with tasks := s.tasks.set i (Task.selecting d s.app.stopChan) }, rfl, h, rfl,
      rfl, rfl⟩
  · rename_i d _ _
    right; right
    exact ⟨{ s with tasks := s.tasks.set i (Task.ticking d) }, rfl, h, rfl, rfl, rfl⟩
  · split
    · right; right
      exact ⟨{ s with tasks := s.tasks.set i Task.returned }, rfl, h, rfl, rfl, rfl⟩
    · left; rfl
  · right; right
    obtain ⟨a1, e, hi, hg, -, -, -⟩ := tick_inv s.app h
    refine ⟨_, by rw [e]; rfl, hi, hg, hi.1.trans h.1.symm, hi.2.1.trans h.2.1.symm⟩
  · left; rfl

theorem step_inv (s : Sys) (op : Op) (h : s.app.Inv) :
    s.step op = none ∨ s.step op = some (.error .nonPositiveInterval) ∨
    ∃ s1, s.step op = some (.ok s1) ∧ s1.app.Inv ∧ s1.app.gen = genStep s.app.gen op ∧
      s1.app.width = s.app.width ∧ s1.app.height = s.app.height := by
  cases op with
  | getState => exact Or.inr (Or.inr ⟨s, rfl, h, rfl, rfl, rfl⟩)
  | toggleCell x y =>
    obtain ⟨a1, t, e, hi, hg, -⟩ := ToggleCell_inv s.app x y h
    exact Or.inr (Or.inr ⟨{ s with app := a1 }, by simp only [Sys.step]; rw [e]; rfl, hi, hg,
      hi.1.trans h.1.symm, hi.2.1.trans h.2.1.symm⟩)
  | setCell x y alive =>
    obtain ⟨a1, e, hi, hg, -⟩ := SetCell_inv s.app x y alive h
    exact Or.inr (Or.inr ⟨{ s with app := a1 }, by simp only [Sys.step]; rw [e]; rfl, hi, hg,
      hi.1.trans h.1.symm, hi.2.1.trans h.2.1.symm⟩)
  | step =>
    obtain ⟨a1, t, e, hi, hg, -⟩ := Step_inv s.app h
    exact Or.inr (Or.inr ⟨{ s with app := a1 }, by simp only [Sys.step]; rw [e]; rfl, hi, hg,
      hi.1.trans h.1.symm, hi.2.1.trans h.2.1.symm⟩)
  | startAutoPlay ms =>
    obtain ⟨s1, e, hi, hg⟩ := StartAutoPlay_inv s ms h
    exact Or.inr (Or.inr ⟨s1, by simp only [Sys.step]; rw [e], hi, hg,
      hi.1.trans h.1.symm, hi.2.1.trans h.2.1.symm⟩)
  | stopAutoPlay =>
    obtain ⟨a1, t, e, hi, hg, -⟩ := StopAutoPlay_inv s.app h
    exact Or.inr (Or.inr ⟨{ s with app := a1 }, by simp only [Sys.step]; rw [e]; rfl, hi, hg,
      hi.1.trans h.1.symm, hi.2.1.trans h.2.1.symm⟩)
  | clear =>
    obtain ⟨a1, t, e, hi, hg, -⟩ := Clear_inv s.app h
    exact Or.inr (Or.inr ⟨{ s with app := a1 }, by simp only [Sys.step]; rw [e]; rfl, hi, hg,
      hi.1.trans h.1.symm, hi.2.1.trans h.2.1.symm⟩)
  | randomize seed =>
    obtain ⟨a1, t, e, hi, hg, -⟩ := Randomize_inv s.app seed h
    exact Or.inr (Or.inr ⟨{ s with app := a1 }, by simp only [Sys.step]; rw [e]; rfl, hi, hg,
      hi.1.trans h.1.symm, hi.2.1.trans h.2.1.symm⟩)
  | task i top => exact taskStep_inv s i top h

theorem run_cons (s : Sys) (op : Op) (ops : List Op) :
    s.run (op :: ops) =
      match s.step op with
      | none => none
      | some (.error e) => some (.error e)
      | some (.ok s1) => s1.run ops := rfl

theorem run_inv (ops : List Op) : ∀ s : Sys, s.app.Inv →
    s.run ops = none ∨ s.run ops = some (.error .nonPositiveInterval) ∨
    ∃ s1, s.run ops = some (.ok s1) ∧ s1.app.Inv := by
  induction ops with
  | nil => intro s h; exact Or.inr (Or.inr ⟨s, rfl, h⟩)
  | cons op ops ih =>
    intro s h
    rw [run_cons]
    rcases step_inv s op h with e | e | ⟨s1, e, h1, -⟩
    · left; rw [e]
    · right; left; rw [e]
    · rw [e]; exact ih s1 h1

theorem genStep_count (n : Nat) (op : Op) (hn : (n : Int) < 9223372036854775807) :
    genStep (n : Int) op = ((countStep n op : Nat) : Int) ∧ countStep n op ≤ n + 1 := by
  have ha : addInt (n : Int) 1 = ((n + 1 : Nat) : Int) := by
    unfold addInt
    rw [wrapInt_of_range (by omega) (by omega)]
    rfl
  cases op with
  | task i top => cases top <;> simp [genStep, countStep, ha]
  | _ => simp [genStep, countStep, ha]

theorem run_gen (ops : List Op) : ∀ (s s1 : Sys) (n : Nat), s.app.Inv → s.app.gen = (n : Int) →
    n + ops.length ≤ 9223372036854775807 → s.run ops = some (.ok s1) →
    s1.app.gen = ((countFrom n ops : Nat) : Int) ∧ countFrom n ops ≤ n + ops.length := by
  induction ops with
  | nil =>
    intro s s1 n _ hg _ hr
    have : s1 = s := by
      have : some (Except.ok s) = some (Except.ok s1) := hr
      injection this with this
      injection this with this
      exact this.symm
    rw [this]
    exact ⟨hg, Nat.le_refl _⟩
  | cons op ops ih =>
    intro s s1 n h hg hlen hr
    rw [run_cons] at hr
    have hl : (op :: ops).length = ops.length + 1 := rfl
    rw [hl] at hlen
    have hn : (n : Int) < 9223372036854775807 := by omega
    obtain ⟨hc1, hc2⟩ := genStep_count n op hn
    rcases step_inv s op h with e | e | ⟨s2, e, h2, g2, -⟩
    · rw [e] at hr; cases hr
    · rw [e] at hr; cases hr
    · rw [e] at hr
      rw [hg, hc1] at g2
      obtain ⟨r1, r2⟩ := ih s2 s1 (countStep n op) h2 g2 (by omega) hr
      exact ⟨r1, by rw [hl]; show countFrom (countStep n op) ops ≤ _; omega⟩

theorem init_ok :
    ∃ s0, Sys.init = .ok s0 ∧ s0.app.Inv ∧ s0.app.gen = 0 ∧ s0.app.playing = false ∧
      s0.app.cells.AllDead 40 30 ∧ s0.tasks = [] := by
  have hm := makeGrid_eq 40 30 (by decide) (by decide)
  refine ⟨{ app := { heap := [List.replicate 30 (List.replicate 40 false)], chans := [],
                     events := [], grid := 0, width := 40, height := 30, gen := 0,
                     playing := false, stopChan := none }, tasks := [] }, ?_,
    ⟨rfl, rfl, replicate_shape 40 30, fun h => absurd h (by decide)⟩, rfl, rfl, ?_, rfl⟩
  · unfold Sys.init NewApp
    rw [hm]
    rfl
  · intro x y _ _
    exact replicate_alive 40 30 x y

theorem call_inv (s : Sys) (op : Op) (h : s.app.Inv) (hop : op.isCall = true) :
    ∃ s1, s.step op = some (.ok s1) ∧ s1.app.Inv ∧ s1.app.gen = genStep s.app.gen op := by
  cases op with
  | getState => exact ⟨s, rfl, h, rfl⟩
  | toggleCell x y =>
    obtain ⟨a1, t, e, hi, hg, -⟩ := ToggleCell_inv s.app x y h
    exact ⟨{ s with app := a1 }, by simp only [Sys.step]; rw [e]; rfl, hi, hg⟩
  | setCell x y alive =>
    obtain ⟨a1, e, hi, hg, -⟩ := SetCell_inv s.app x y alive h
    exact ⟨{ s with app := a1 }, by simp only [Sys.step]; rw [e]; rfl, hi, hg⟩
  | step =>
    obtain ⟨a1, t, e, hi, hg, -⟩ := Step_inv s.app h
    exact ⟨{ s with app := a1 }, by simp only [Sys.step]; rw [e]; rfl, hi, hg⟩
  | startAutoPlay ms =>
    obtain ⟨s1, e, hi, hg⟩ := StartAutoPlay_inv s ms h
    exact ⟨s1, by simp only [Sys.step]; rw [e], hi, hg⟩
  | stopAutoPlay =>
    obtain ⟨a1, t, e, hi, hg, -⟩ := StopAutoPlay_inv s.app h
    exact ⟨{ s with app := a1 }, by simp only [Sys.step]; rw [e]; rfl, hi, hg⟩
  | clear =>
    obtain ⟨a1, t, e, hi, hg, -⟩ := Clear_inv s.app h
    exact ⟨{ s with app := a1 }, by simp only [Sys.step]; rw [e]; rfl, hi, hg⟩
  | randomize seed =>
    obtain ⟨a1, t, e, hi, hg, -⟩ := Randomize_inv s.app seed h
    exact ⟨{ s with app := a1 }, by simp only [Sys.step]; rw [e]; rfl, hi, hg⟩
  | task i top => simp [Op.isCall] at hop

theorem run_step_ok {s s1 : Sys} {op : Op} {ops : List Op}
    (h : s.step op = some (.ok s1)) : s.run (op :: ops) = s1.run ops := by
  rw [run_cons, h]

theorem reach_inv (ops : List Op) (s0 s : Sys) (h0 : Sys.init = .ok s0)
    (hr : s0.run ops = some (.ok s)) : s.app.Inv := by
  obtain ⟨t0, e0, hi, -⟩ := init_ok
  rw [h0] at e0
  injection e0 with e0
  subst e0
  rcases run_inv ops s0 hi with e | e | ⟨s1, e, h1⟩
  · rw [e] at hr; cases hr
  · rw [e] at hr; cases hr
  · rw [e] at hr
    injection hr with hr
    injection hr with hr
    rw [← hr]; exact h1

theorem reach_gen (ops : List Op) (s0 s : Sys) (h0 : Sys.init = .ok s0)
    (hr : s0.run ops = some (.ok s)) (hlen : ops.length < 9223372036854775807) :
    s.app.gen = ((countFrom 0 ops : Nat) : Int) ∧ countFrom 0 ops ≤ ops.length := by
  obtain ⟨t0, e0, hi, hg, -⟩ := init_ok
  rw [h0] at e0
  injection e0 with e0
  subst e0
  have := run_gen ops s0 s 0 hi hg (by omega) hr
  simpa using this

/-- C13: in every state reachable from `NewApp()` by calls and autoplay ticks,
generation is non-negative and equals the number of `Step` calls and ticks since
the most recent `Clear`, `Randomize` or construction; a transition other than
`Clear` and `Randomize` keeps the generation or adds one, and `Clear` and
`Randomize` set it to 0.  The execution is shorter than the largest Go `int`,
so the counter has not wrapped. -/
theorem generation_counts (ops : List Op) (s0 s : Sys) (h0 : Sys.init = .ok s0)
    (hr : s0.run ops = some (.ok s)) (hlen : ops.length < 9223372036854775807) :
    s.app.gen = ((countFrom 0 ops : Nat) : Int) ∧ 0 ≤ s.app.gen ∧
    ∀ op s1, s.step op = some (.ok s1) →
      (op.isReset = false → s1.app.gen = s.app.gen ∨ s1.app.gen = s.app.gen + 1) ∧
      (op.isReset = true → s1.app.gen = 0) ∧
      ((op = Op.step ∨ ∃ i, op = Op.task i TaskOp.tick) → s1.app.gen = s.app.gen + 1) := by
  obtain ⟨hg, hle⟩ := reach_gen ops s0 s h0 hr hlen
  have hi := reach_inv ops s0 s h0 hr
  refine ⟨hg, by rw [hg]; exact Int.natCast_nonneg _, ?_⟩
  intro op s1 hs
  have hn : ((countFrom 0 ops : Nat) : Int) < 9223372036854775807 := by omega
  obtain ⟨hc, -⟩ := genStep_count (countFrom 0 ops) op hn
  have hg1 : s1.app.gen = genStep s.app.gen op := by
    rcases step_inv s op hi with e | e | ⟨s2, e, -, g2, -⟩
    · rw [e] at hs; cases hs
    · rw [e] at hs; cases hs
    · rw [e] at hs
      injection hs with hs
      injection hs with hs
      rw [← hs]; exact g2
  rw [hg1, hg, hc]
  refine ⟨?_, ?_, ?_⟩
  · intro hreset
    cases op with
    | task i top => cases top <;> simp [countStep]
    | _ => first | (simp [countStep]; done) | (simp [Op.isReset] at hreset)
  · intro hreset
    cases op with
    | task i top => simp [Op.isReset] at hreset
    | _ => first | rfl | (simp [Op.isReset] at hreset)
  · rintro (rfl | ⟨i, rfl⟩) <;> simp [countStep]

/-- Witness of C13 on two `Step` calls followed by a `ToggleCell`. -/
theorem generation_counts_witness :
    ∃ s0 s, Sys.init = .ok s0 ∧
      s0.run [Op.step, Op.step, Op.toggleCell 1 1] = some (.ok s) ∧
      s.app.gen = ((countFrom 0 [Op.step, Op.step, Op.toggleCell 1 1] : Nat) : Int) ∧
      0 ≤ s.app.gen ∧
      ∀ op s1, s.step op = some (.ok s1) →
        (op.isReset = false → s1.app.gen = s.app.gen ∨ s1.app.gen = s.app.gen + 1) ∧
        (op.isReset = true → s1.app.gen = 0) ∧
        ((op = Op.step ∨ ∃ i, op = Op.task i TaskOp.tick) → s1.app.gen = s.app.gen + 1) := by
  obtain ⟨s0, h0, hi0, -⟩ := init_ok
  obtain ⟨s1, e1, hi1, -⟩ := call_inv s0 Op.step hi0 rfl
  obtain ⟨s2, e2, hi2, -⟩ := call_inv s1 Op.step hi1 rfl
  obtain ⟨s3, e3, -⟩ := call_inv s2 (Op.toggleCell 1 1) hi2 rfl
  have hr : s0.run [Op.step, Op.step, Op.toggleCell 1 1] = some (.ok s3) := by
    rw [run_step_ok e1, run_step_ok e2, run_step_ok e3]
    rfl
  exact ⟨s0, s3, h0, hr, generation_counts _ s0 s3 h0 hr (by decide)⟩

/-- C14: in every state reachable from `NewApp()` by calls and autoplay
ticks, `width` is 40, `height` is 30 and the grid has exactly 30 rows of exactly
40 columns; the initial state is moreover all-dead with generation 0 and
`playing` false; and no transition changes `width` or `height`. -/
theorem dimensions_fixed (ops : List Op) (s0 s : Sys) (h0 : Sys.init = .ok s0)
    (hr : s0.run ops = some (.ok s)) :
    (s0.app.width = 40 ∧ s0.app.height = 30 ∧ s0.app.cells.HasShape 40 30 ∧
      s0.app.cells.AllDead 40 30 ∧ s0.app.gen = 0 ∧ s0.app.playing = false) ∧
    (s.app.width = 40 ∧ s.app.height = 30 ∧ s.app.cells.HasShape 40 30) ∧
    ∀ op s1, s.step op = some (.ok s1) →
      s1.app.width = s.app.width ∧ s1.app.height = s.app.height := by
  have hi := reach_inv ops s0 s h0 hr
  obtain ⟨t0, e0, hi0, hg0, hp0, hd0, -⟩ := init_ok
  rw [h0] at e0
  injection e0 with e0
  subst e0
  refine ⟨⟨hi0.1, hi0.2.1, hi0.2.2.1, hd0, hg0, hp0⟩, ⟨hi.1, hi.2.1, hi.2.2.1⟩, ?_⟩
  intro op s1 hs
  rcases step_inv s op hi with e | e | ⟨s2, e, -, -, w2, h2⟩
  · rw [e] at hs; cases hs
  · rw [e] at hs; cases hs
  · rw [e] at hs
    injection hs with hs
    injection hs with hs
    rw [← hs]; exact ⟨w2, h2⟩

/-- Witness of C14 on a `Randomize`, a `Step` and a `Clear`. -/
theorem dimensions_fixed_witness :
    ∃ s0 s, Sys.init = .ok s0 ∧
      s0.run [Op.randomize 12345, Op.step, Op.clear] = some (.ok s) ∧
      (s0.app.width = 40 ∧ s0.app.height = 30 ∧ s0.app.cells.HasShape 40 30 ∧
        s0.app.cells.AllDead 40 30 ∧ s0.app.gen = 0 ∧ s0.app.playing = false) ∧
      (s.app.width = 40 ∧ s.app.height = 30 ∧ s.app.cells.HasShape 40 30) ∧
      ∀ op s1, s.step op = some (.ok s1) →
        s1.app.width = s.app.width ∧ s1.app.height = s.app.height := by
  obtain ⟨s0, h0, hi0, -⟩ := init_ok
  obtain ⟨s1, e1, hi1, -⟩ := call_inv s0 (Op.randomize 12345) hi0 rfl
  obtain ⟨s2, e2, hi2, -⟩ := call_inv s1 Op.step hi1 rfl
  obtain ⟨s3, e3, -⟩ := call_inv s2 Op.clear hi2 rfl
  have hr : s0.run [Op.randomize 12345, Op.step, Op.clear] = some (.ok s3) := by
    rw [run_step_ok e1, run_step_ok e2, run_step_ok e3]
    rfl
  exact ⟨s0, s3, h0, hr, dimensions_fixed _ s0 s3 h0 hr⟩

theorem run_error (ops : List Op) (s0 : Sys) (h0 : Sys.init = .ok s0) (e : Panic)
    (hr : s0.run ops = some (.error e)) : e = Panic.nonPositiveInterval := by
  obtain ⟨t0, e0, hi, -⟩ := init_ok
  rw [h0] at e0
  injection e0 with e0
  subst e0
  rcases run_inv ops s0 hi with h | h | ⟨s1, h, -⟩
  · rw [h] at hr; cases hr
  · rw [h] at hr
    injection hr with hr
    injection hr with hr
    exact hr.symm
  · rw [h] at hr
    injection hr with hr
    cases hr

/-- C15: in every state reachable from `NewApp()`, `playing` is true only if
the stop channel is non-nil and not yet closed; hence no execution from
`NewApp()` panics in `close` on a nil or closed channel; stopping twice performs
no second close; and `StopAutoPlay`, `Clear` and `Randomize` on an Idle
controller perform no close at all. -/
theorem stopChan_open (ops : List Op) (s0 s : Sys) (h0 : Sys.init = .ok s0)
    (hr : s0.run ops = some (.ok s)) :
    (s.app.playing = true → ∃ c, s.app.stopChan = some c ∧ s.app.chans[c]? = some false) ∧
    (∀ more, s.run more ≠ some (.error .closeNilChannel) ∧
      s.run more ≠ some (.error .closeClosedChannel)) ∧
    (∃ a1 t1 a2 t2, s.app.StopAutoPlay = .ok (a1, t1) ∧ a1.StopAutoPlay = .ok (a2, t2) ∧
      a2.chans = a1.chans) ∧
    (s.app.playing = false → ∀ seed,
      (∃ a1 t, s.app.StopAutoPlay = .ok (a1, t) ∧ a1.chans = s.app.chans) ∧
      (∃ a1 t, s.app.Clear = .ok (a1, t) ∧ a1.chans = s.app.chans) ∧
      (∃ a1 t, s.app.Randomize seed = .ok (a1, t) ∧ a1.chans = s.app.chans)) := by
  have hi := reach_inv ops s0 s h0 hr
  refine ⟨hi.2.2.2, ?_, ?_, ?_⟩
  · intro more
    rcases run_inv more s hi with h | h | ⟨s1, h, -⟩ <;> rw [h] <;> constructor <;>
      intro hc <;> cases hc
  · obtain ⟨a1, t1, e1, hi1, -, p1, -⟩ := StopAutoPlay_inv s.app hi
    obtain ⟨a2, t2, e2, -, -, -, c2⟩ := StopAutoPlay_inv a1 hi1
    exact ⟨a1, t1, a2, t2, e1, e2, c2 p1⟩
  · intro hp seed
    obtain ⟨a1, t1, e1, -, -, -, c1⟩ := StopAutoPlay_inv s.app hi
    obtain ⟨a2, t2, e2, -, -, c2⟩ := Clear_inv s.app hi
    obtain ⟨a3, t3, e3, -, -, c3⟩ := Randomize_inv s.app seed hi
    exact ⟨⟨a1, t1, e1, c1 hp⟩, ⟨a2, t2, e2, c2 hp⟩, ⟨a3, t3, e3, c3 hp⟩⟩

/-- Witness of C15 after a start, a stop and a second stop. -/
theorem stopChan_open_witness :
    ∃ s0 s, Sys.init = .ok s0 ∧
      s0.run [Op.startAutoPlay 100, Op.stopAutoPlay, Op.stopAutoPlay] = some (.ok s) ∧
      (s.app.playing = true → ∃ c, s.app.stopChan = some c ∧ s.app.chans[c]? = some false) ∧
      (∀ more, s.run more ≠ some (.error .closeNilChannel) ∧
        s.run more ≠ some (.error .closeClosedChannel)) ∧
      (∃ a1 t1 a2 t2, s.app.StopAutoPlay = .ok (a1, t1) ∧ a1.StopAutoPlay = .ok (a2, t2) ∧
        a2.chans = a1.chans) ∧
      (s.app.playing = false → ∀ seed,
        (∃ a1 t, s.app.StopAutoPlay = .ok (a1, t) ∧ a1.chans = s.app.chans) ∧
        (∃ a1 t, s.app.Clear = .ok (a1, t) ∧ a1.chans = s.app.chans) ∧
        (∃ a1 t, s.app.Randomize seed = .ok (a1, t) ∧ a1.chans = s.app.chans)) := by
  obtain ⟨s0, h0, hi0, -⟩ := init_ok
  obtain ⟨s1, e1, hi1, -⟩ := call_inv s0 (Op.startAutoPlay 100) hi0 rfl
  obtain ⟨s2, e2, hi2, -⟩ := call_inv s1 Op.stopAutoPlay hi1 rfl
  obtain ⟨s3, e3, -⟩ := call_inv s2 Op.stopAutoPlay hi2 rfl
  have hr : s0.run [Op.startAutoPlay 100, Op.stopAutoPlay, Op.stopAutoPlay] = some (.ok s3) := by
    rw [run_step_ok e1, run_step_ok e2, run_step_ok e3]
    rfl
  exact ⟨s0, s3, h0, hr, stopChan_open _ s0 s3 h0 hr⟩

/-- C19: no operation can hit an out-of-range slice index.  For a grid of `h`
rows by `w` columns and an in-range `(x, y)`, each pair
`((x+dx+w) % w, (y+dy+h) % h)` computed by `countNeighbors` with Go's truncating
remainder is in range and the cell access succeeds, so `nextGeneration` returns
a grid; `ToggleCell` and `SetCell` do not index the grid for any integers
`(x, y)` outside the range, negative ones included; and from `NewApp()` no
execution ends in an index panic and every call on a reachable state returns.
The dimensions are slice lengths, below `dimLimit`. -/
theorem no_index_panic (w h : Nat) (g : Grid) (x y : Nat) (dx dy : Int)
    (hw : 1 ≤ w) (hh : 1 ≤ h) (hwl : w < dimLimit) (hhl : h < dimLimit)
    (hg : g.HasShape w h) (hx : x < w) (hy : y < h)
    (hdx : -1 ≤ dx ∧ dx ≤ 1) (hdy : -1 ≤ dy ∧ dy ≤ 1) :
    (∃ nx ny, remInt (addInt (addInt (x : Int) dx) w) w = .ok nx ∧
      remInt (addInt (addInt (y : Int) dy) h) h = .ok ny ∧
      0 ≤ nx ∧ nx < w ∧ 0 ≤ ny ∧ ny < h ∧
      ∃ c, (index g ny >>= fun row => index row nx) = .ok c) ∧
    (∃ next, nextGeneration g w h = .ok next) ∧
    (∀ (a : App) (x y : Int) (alive : Bool),
      ¬ (x ≥ 0 ∧ x < a.width ∧ y ≥ 0 ∧ y < a.height) →
        a.ToggleCell x y = .ok (a, a.snapshot) ∧
        a.SetCell x y alive = .ok { a with events := a.events ++ [Event.cellUpdated x y alive] }) ∧
    (∀ ops s0, Sys.init = .ok s0 →
      s0.run ops ≠ some (.error .indexOutOfRange) ∧
      ∀ s, s0.run ops = some (.ok s) → ∀ op, op.isCall = true →
        ∃ s1, s.step op = some (.ok s1)) := by
  have hw2 : (w : Int) < 4611686018427387904 := by unfold dimLimit at hwl; omega
  have hh2 : (h : Int) < 4611686018427387904 := by unfold dimLimit at hhl; omega
  have hwpos : (0 : Int) < w := by omega
  have hhpos : (0 : Int) < h := by omega
  have b1 := Int.emod_nonneg ((x : Int) + dx) (ne_of_gt hwpos)
  have b2 := Int.emod_lt_of_pos ((x : Int) + dx) hwpos
  have b3 := Int.emod_nonneg ((y : Int) + dy) (ne_of_gt hhpos)
  have b4 := Int.emod_lt_of_pos ((y : Int) + dy) hhpos
  refine ⟨⟨_, _, wrapCoord x w dx hw hw2 hx hdx.1 hdx.2, wrapCoord y h dy hh hh2 hy hdy.1 hdy.2,
    b1, b2, b3, b4, _, index_cell hg _ _ b1 b2 b3 b4⟩,
    ⟨_, nextGeneration_eq hg hw hw2 hh hh2⟩, ?_, ?_⟩
  · intro a x y alive hcond
    constructor
    · unfold App.ToggleCell
      rw [if_neg hcond]
      rfl
    · unfold App.SetCell
      rw [if_neg hcond]
      rfl
  · intro ops s0 h0
    constructor
    · intro hc
      have := run_error ops s0 h0 _ hc
      cases this
    · intro s hr op hop
      obtain ⟨s1, e, -⟩ := call_inv s op (reach_inv ops s0 s h0 hr) hop
      exact ⟨s1, e⟩

/-- Witness of C19 at the corner (0, 0) of the 3 by 3 blinker with offset
(-1, -1). -/
theorem no_index_panic_witness :
    (∃ nx ny, remInt (addInt (addInt ((0 : Nat) : Int) (-1)) (3 : Nat)) (3 : Nat) = .ok nx ∧
      remInt (addInt (addInt ((0 : Nat) : Int) (-1)) (3 : Nat)) (3 : Nat) = .ok ny ∧
      0 ≤ nx ∧ nx < (3 : Nat) ∧ 0 ≤ ny ∧ ny < (3 : Nat) ∧
      ∃ c, (index blinkerVertical ny >>= fun row => index row nx) = .ok c) ∧
    (∃ next, nextGeneration blinkerVertical (3 : Nat) (3 : Nat) = .ok next) ∧
    (∀ (a : App) (x y : Int) (alive : Bool),
      ¬ (x ≥ 0 ∧ x < a.width ∧ y ≥ 0 ∧ y < a.height) →
        a.ToggleCell x y = .ok (a, a.snapshot) ∧
        a.SetCell x y alive = .ok { a with events := a.events ++ [Event.cellUpdated x y alive] }) ∧
    (∀ ops s0, Sys.init = .ok s0 →
      s0.run ops ≠ some (.error .indexOutOfRange) ∧
      ∀ s, s0.run ops = some (.ok s) → ∀ op, op.isCall = true →
        ∃ s1, s.step op = some (.ok s1)) :=
  no_index_panic 3 3 blinkerVertical 0 0 (-1) (-1) (by decide) (by decide) (by decide)
    (by decide) (by unfold Grid.HasShape; decide) (by decide) (by decide) (by decide)
    (by decide)

/-! ## Snapshots share the grid -/

theorem deref_append (a : App) (g : Grid) (p : Nat) (hp : p < a.heap.length) :
    (a.heap ++ [g]).getD p [] = a.deref p := by
  simp [App.deref, List.getElem?_append_left hp]

theorem deref_set (a : App) (g : Grid) (p : Nat) (hp : p ≠ a.grid) :
    (a.heap.set a.grid g).getD p [] = a.deref p := by
  simp [App.deref, List.getElem?_set_ne (Ne.symm hp)]

theorem writeCell_frame (a a1 : App) (x y : Int) (v : Bool) (h : a.writeCell x y v = .ok a1)
    (p : Nat) (hp : p ≠ a.grid) : a1.deref p = a.deref p ∧ a1.grid = a.grid := by
  unfold App.writeCell at h
  cases h1 : index a.cells y with
  | error e => rw [h1] at h; cases h
  | ok row =>
    rw [h1] at h
    simp only [bind, Except.bind] at h
    cases h2 : index row x with
    | error e => rw [h2] at h; cases h
    | ok c =>
      rw [h2] at h
      simp only [pure, Except.pure] at h
      injection h with h
      rw [← h]
      exact ⟨deref_set a _ p hp, rfl⟩

theorem ToggleCell_frame (a a1 : App) (t : GameState) (x y : Int)
    (h : a.ToggleCell x y = .ok (a1, t)) (p : Nat) :
    (p ≠ a.grid → a1.deref p = a.deref p) ∧
    (¬ (x ≥ 0 ∧ x < a.width ∧ y ≥ 0 ∧ y < a.height) → a1.deref p = a.deref p) := by
  unfold App.ToggleCell at h
  by_cases hcond : x ≥ 0 ∧ x < a.width ∧ y ≥ 0 ∧ y < a.height
  · rw [if_pos hcond] at h
    refine ⟨fun hp => ?_, fun hn => absurd hcond hn⟩
    cases h1 : index a.cells y with
    | error e => rw [h1] at h; cases h
    | ok row =>
      rw [h1] at h
      simp only [bind, Except.bind] at h
      cases h2 : index row x with
      | error e => rw [h2] at h; cases h
      | ok c =>
        rw [h2] at h
        simp only at h
        cases h3 : a.writeCell x y (!c) with
        | error e => rw [h3] at h; cases h
        | ok b =>
          rw [h3] at h
          simp only [pure, Except.pure] at h
          injection h with h
          injection h with h _
          rw [← h]
          exact (writeCell_frame a b x y _ h3 p hp).1
  · rw [if_neg hcond] at h
    simp only [bind, Except.bind, pure, Except.pure] at h
    injection h with h
    injection h with h _
    rw [← h]
    exact ⟨fun _ => rfl, fun _ => rfl⟩

theorem SetCell_frame (a a1 : App) (x y : Int) (alive : Bool)
    (h : a.SetCell x y alive = .ok a1) (p : Nat) :
    (p ≠ a.grid → a1.deref p = a.deref p) ∧
    (¬ (x ≥ 0 ∧ x < a.width ∧ y ≥ 0 ∧ y < a.height) → a1.deref p = a.deref p) := by
  unfold App.SetCell at h
  by_cases hcond : x ≥ 0 ∧ x < a.width ∧ y ≥ 0 ∧ y < a.height
  · rw [if_pos hcond] at h
    refine ⟨fun hp => ?_, fun hn => absurd hcond hn⟩
    cases h3 : a.writeCell x y alive with
    | error e => rw [h3] at h; cases h
    | ok b =>
      rw [h3] at h
      simp only [bind, Except.bind, pure, Except.pure] at h
      injection h with h
      rw [← h]
      exact (writeCell_frame a b x y _ h3 p hp).1
  · rw [if_neg hcond] at h
    simp only [bind, Except.bind, pure, Except.pure] at h
    injection h with h
    rw [← h]
    exact ⟨fun _ => rfl, fun _ => rfl⟩

theorem Step_frame (a a1 : App) (t : GameState) (h : a.Step = .ok (a1, t)) (p : Nat)
    (hp : p < a.heap.length) : a1.deref p = a.deref p := by
  unfold App.Step at h
  cases h1 : nextGeneration a.cells a.width a.height with
  | error e => rw [h1] at h; cases h
  | ok next =>
    rw [h1] at h
    simp only [bind, Except.bind, pure, Except.pure] at h
    injection h with h
    injection h with h _
    rw [← h]
    exact deref_append a next p hp

theorem tick_frame (a a1 : App) (h : a.tick = .ok a1) (p : Nat)
    (hp : p < a.heap.length) : a1.deref p = a.deref p := by
  unfold App.tick at h
  cases h1 : nextGeneration a.cells a.width a.height with
  | error e => rw [h1] at h; cases h
  | ok next =>
    rw [h1] at h
    simp only [bind, Except.bind, pure, Except.pure] at h
    injection h with h
    rw [← h]
    exact deref_append a next p hp

theorem cancel_frame (a a1 : App) (h : a.cancel = .ok a1) :
    a1.heap = a.heap ∧ a1.grid = a.grid := by
  unfold App.cancel at h
  cases hp : a.playing with
  | false =>
    rw [hp] at h
    simp only [Bool.false_eq_true, if_false, pure, Except.pure] at h
    injection h with h
    rw [← h]
    exact ⟨rfl, rfl⟩
  | true =>
    rw [hp] at h
    simp only [if_true, bind, Except.bind] at h
    cases hc : closeChan a.chans a.stopChan with
    | error e => rw [hc] at h; cases h
    | ok chans =>
      rw [hc] at h
      simp only [pure, Except.pure] at h
      injection h with h
      rw [← h]
      exact ⟨rfl, rfl⟩

theorem StopAutoPlay_frame (a a1 : App) (t : GameState) (h : a.StopAutoPlay = .ok (a1, t))
    (p : Nat) : a1.deref p = a.deref p := by
  unfold App.StopAutoPlay at h
  cases h1 : a.cancel with
  | error e => rw [h1] at h; cases h
  | ok b =>
    rw [h1] at h
    simp only [bind, Except.bind, pure, Except.pure] at h
    injection h with h
    injection h with h _
    rw [← h]
    unfold App.deref
    rw [(cancel_frame a b h1).1]

theorem Clear_frame (a a1 : App) (t : GameState) (h : a.Clear = .ok (a1, t))
    (p : Nat) (hp : p < a.heap.length) : a1.deref p = a.deref p := by
  unfold App.Clear at h
  cases h1 : a.cancel with
  | error e => rw [h1] at h; cases h
  | ok b =>
    rw [h1] at h
    simp only [bind, Except.bind] at h
    cases h2 : makeGrid b.width b.height with
    | error e => rw [h2] at h; cases h
    | ok g =>
      rw [h2] at h
      simp only [pure, Except.pure] at h
      injection h with h
      injection h with h _
      rw [← h]
      have hb := (cancel_frame a b h1).1
      have := deref_append b g p (by rw [hb]; exact hp)
      unfold App.deref at this ⊢
      rw [← hb]
      exact this

theorem Randomize_frame (a a1 : App) (t : GameState) (seed : Int)
    (h : a.Randomize seed = .ok (a1, t))
    (p : Nat) (hp : p < a.heap.length) : a1.deref p = a.deref p := by
  unfold App.Randomize at h
  cases h1 : a.cancel with
  | error e => rw [h1] at h; cases h
  | ok b =>
    rw [h1] at h
    simp only [bind, Except.bind] at h
    cases h2 : randomGrid seed b.width b.height with
    | error e => rw [h2] at h; cases h
    | ok g =>
      rw [h2] at h
      simp only [pure, Except.pure] at h
      injection h with h
      injection h with h _
      rw [← h]
      have hb := (cancel_frame a b h1).1
      have := deref_append b g p (by rw [hb]; exact hp)
      unfold App.deref at this ⊢
      rw [← hb]
      exact this

theorem StartAutoPlay_frame (s s1 : Sys) (ms : Int) (h : s.StartAutoPlay ms = .ok s1)
    (p : Nat) : s1.app.deref p = s.app.deref p := by
  cases hp : s.app.playing with
  | false =>
    rw [Sys_StartAutoPlay_idle s ms hp] at h
    injection h with h
    rw [← h]
    rfl
  | true =>
    unfold Sys.StartAutoPlay at h
    rw [App_StartAutoPlay_playing _ _ hp] at h
    simp only [bind, Except.bind, pure, Except.pure] at h
    injection h with h
    rw [← h]

theorem taskStep_frame (s s1 : Sys) (i : Nat) (top : TaskOp)
    (h : s.taskStep i top = some (.ok s1)) (p : Nat) (hp : p < s.app.heap.length) :
    s1.app.deref p = s.app.deref p := by
  unfold Sys.taskStep at h
  split at h
  · rename_i ms _
    cases hd : newTicker (tickerDuration ms) with
    | error e => rw [hd] at h; cases h
    | ok d =>
      rw [hd] at h
      simp only [bind, Except.bind, pure, Except.pure] at h
      injection h with h
      injection h with h
      rw [← h]
  · simp only [pure, Except.pure] at h
    injection h with h
    injection h with h
    rw [← h]
  · simp only [pure, Except.pure] at h
    injection h with h
    injection h with h
    rw [← h]
  · split at h
    · simp only [pure, Except.pure] at h
      injection h with h
      injection h with h
      rw [← h]
    · cases h
  · cases ht : s.app.tick with
    | error e => rw [ht] at h; cases h
    | ok a1 =>
      rw [ht] at h
      simp only [bind, Except.bind, pure, Except.pure] at h
      injection h with h
      injection h with h
      rw [← h]
      exact tick_frame s.app a1 ht p hp
  · cases h

theorem step_frame (s s1 : Sys) (op : Op) (h : s.step op = some (.ok s1)) (p : Nat)
    (hp : p < s.app.heap.length) (hw : p ≠ s.app.grid ∨ ¬ op.writesCell s.app) :
    s1.app.deref p = s.app.deref p := by
  cases op with
  | getState =>
    simp only [Sys.step, App.GetState, bind, Except.bind, pure, Except.pure] at h
    injection h with h
    injection h with h
    rw [← h]
  | toggleCell x y =>
    simp only [Sys.step] at h
    cases h1 : s.app.ToggleCell x y with
    | error e => rw [h1] at h; cases h
    | ok r =>
      rw [h1] at h
      simp only [bind, Except.bind, pure, Except.pure] at h
      injection h with h
      injection h with h
      rw [← h]
      obtain ⟨f1, f2⟩ := ToggleCell_frame s.app r.1 r.2 x y h1 p
      rcases hw with hw | hw
      · exact f1 hw
      · exact f2 hw
  | setCell x y alive =>
    simp only [Sys.step] at h
    cases h1 : s.app.SetCell x y alive with
    | error e => rw [h1] at h; cases h
    | ok r =>
      rw [h1] at h
      simp only [bind, Except.bind, pure, Except.pure] at h
      injection h with h
      injection h with h
      rw [← h]
      obtain ⟨f1, f2⟩ := SetCell_frame s.app r x y alive h1 p
      rcases hw with hw | hw
      · exact f1 hw
      · exact f2 hw
  | step =>
    simp only [Sys.step] at h
    cases h1 : s.app.Step with
    | error e => rw [h1] at h; cases h
    | ok r =>
      rw [h1] at h
      simp only [bind, Except.bind, pure, Except.pure] at h
      injection h with h
      injection h with h
      rw [← h]
      exact Step_frame s.app r.1 r.2 h1 p hp
  | startAutoPlay ms =>
    simp only [Sys.step] at h
    injection h with h
    exact StartAutoPlay_frame s s1 ms h p
  | stopAutoPlay =>
    simp only [Sys.step] at h
    cases h1 : s.app.StopAutoPlay with
    | error e => rw [h1] at h; cases h
    | ok r =>
      rw [h1] at h
      simp only [bind, Except.bind, pure, Except.pure] at h
      injection h with h
      injection h with h
      rw [← h]
      exact StopAutoPlay_frame s.app r.1 r.2 h1 p
  | clear =>
    simp only [Sys.step] at h
    cases h1 : s.app.Clear with
    | error e => rw [h1] at h; cases h
    | ok r =>
      rw [h1] at h
      simp only [bind, Except.bind, pure, Except.pure] at h
      injection h with h
      injection h with h
      rw [← h]
      exact Clear_frame s.app r.1 r.2 h1 p hp
  | randomize seed =>
    simp only [Sys.step] at h
    cases h1 : s.app.Randomize seed with
    | error e => rw [h1] at h; cases h
    | ok r =>
      rw [h1] at h
      simp only [bind, Except.bind, pure, Except.pure] at h
      injection h with h
      injection h with h
      rw [← h]
      exact Randomize_frame s.app r.1 r.2 seed h1 p hp
  | task i top => exact taskStep_frame s s1 i top h p hp

theorem Inv_grid_valid {a : App} (h : a.Inv) : a.grid < a.heap.length := by
  apply grid_valid
  intro h0
  have := h.2.2.1.1
  rw [h0] at this
  cases this

/-- C18, refuted as stated: the snapshot `GetState` returns on the 3 by 3
blinker shows the cell (1, 1) alive, and after a later `ToggleCell(1, 1)` the
same snapshot shows it dead. -/
theorem snapshot_sees_later_toggle :
    ∃ a0 t a1 t1, blinkerApp.GetState = .ok (a0, t) ∧ a0.ToggleCell 1 1 = .ok (a1, t1) ∧
      (a0.deref t.Grid).alive 1 1 = true ∧ (a1.deref t.Grid).alive 1 1 = false :=
  ⟨blinkerApp, blinkerApp.snapshot, blinkerApp.poke 1 1 false,
    (blinkerApp.poke 1 1 false).snapshot, rfl, by decide, by decide, by decide⟩

/-- C18, amended: a snapshot holds the controller's grid object, not a copy.
The grid contents seen through an earlier snapshot are unchanged by every
transition except a `ToggleCell` or `SetCell` that passes the range guard while
the controller's grid is still the object the snapshot refers to; such a
`ToggleCell` flips, and such a `SetCell` sets, the cell seen through the
snapshot. -/
theorem snapshot_shared (s : Sys) (t : GameState) (hi : s.app.Inv)
    (ht : t.Grid < s.app.heap.length) :
    (∀ op s1, s.step op = some (.ok s1) →
      (t.Grid ≠ s.app.grid ∨ ¬ op.writesCell s.app) →
        s1.app.deref t.Grid = s.app.deref t.Grid) ∧
    (∀ x y : Nat, x < 40 → y < 30 → t.Grid = s.app.grid →
      (∃ a1 t1, s.app.ToggleCell x y = .ok (a1, t1) ∧
        (a1.deref t.Grid).alive x y = !(s.app.deref t.Grid).alive x y) ∧
      ∀ alive, ∃ a1, s.app.SetCell x y alive = .ok a1 ∧
        (a1.deref t.Grid).alive x y = alive) := by
  refine ⟨fun op s1 hs hw => step_frame s s1 op hs t.Grid ht hw, ?_⟩
  intro x y hx hy hg
  have hv := Inv_grid_valid hi
  obtain ⟨hw, hh, hshape, -⟩ := hi
  have hyl : y < s.app.cells.length := by rw [hshape.1]; exact hy
  have hxl : x < (s.app.cells.getD y []).length := by
    rw [hshape.row_length (y := y) hy]; exact hx
  have hxw : (x : Int) < s.app.width := by rw [hw]; omega
  have hyh : (y : Int) < s.app.height := by rw [hh]; omega
  rw [hg]
  constructor
  · refine ⟨_, _, ToggleCell_ok s.app x y hxw hyh hyl hxl, ?_⟩
    show (App.cells _).alive x y = !(s.app.cells).alive x y
    rw [poke_cells hv, alive_set _ _ _ _ _ _ hyl hxl]
    simp
  · intro alive
    refine ⟨{ s.app.poke x y alive with
        events := (s.app.poke x y alive).events ++ [Event.cellUpdated x y alive] }, ?_, ?_⟩
    · unfold App.SetCell
      rw [if_pos ⟨by omega, hxw, by omega, hyh⟩, writeCell_ok s.app x y alive hyl hxl]
      rfl
    · show (App.cells (s.app.poke x y alive)).alive x y = alive
      rw [poke_cells hv, alive_set _ _ _ _ _ _ hyl hxl]
      simp

/-- Witness of the amended C18 on the state `NewApp()` returns and its own
snapshot. -/
theorem snapshot_shared_witness :
    ∃ s : Sys, Sys.init = .ok s ∧
    (∀ op s1, s.step op = some (.ok s1) →
      (s.app.snapshot.Grid ≠ s.app.grid ∨ ¬ op.writesCell s.app) →
        s1.app.deref s.app.snapshot.Grid = s.app.deref s.app.snapshot.Grid) ∧
    (∀ x y : Nat, x < 40 → y < 30 → s.app.snapshot.Grid = s.app.grid →
      (∃ a1 t1, s.app.ToggleCell x y = .ok (a1, t1) ∧
        (a1.deref s.app.snapshot.Grid).alive x y
          = !(s.app.deref s.app.snapshot.Grid).alive x y) ∧
      ∀ alive, ∃ a1, s.app.SetCell x y alive = .ok a1 ∧
        (a1.deref s.app.snapshot.Grid).alive x y = alive) := by
  obtain ⟨s0, h0, hi0, -⟩ := init_ok
  exact ⟨s0, h0, snapshot_shared s0 s0.app.snapshot hi0 (Inv_grid_valid hi0)⟩

/-! ## Cancellation of the goroutine -/

/-- C17, evaluated on the code: `StartAutoPlay(50)`, then `StopAutoPlay()` and
`StartAutoPlay(50)` while the first goroutine has a tick in flight.  The first
goroutine finishes its tick, evaluates `a.stopChan` anew, finds the open channel
of the second session and goes on: after the stop it performs two ticks, and
the execution ends with two goroutines running on the same open channel. -/
theorem restart_keeps_first_goroutine :
    ∃ s5 s8 s, idleSys.run (restartTrace.take 5) = some (.ok s5) ∧
      s5.app.playing = false ∧ s5.app.chans = [true] ∧ s5.app.gen = 0 ∧
      s5.tasks = [Task.ticking 50000000] ∧
      s5.run ((restartTrace.drop 5).take 3) = some (.ok s8) ∧
      s8.app.gen = 1 ∧ s8.app.chans = [true, false] ∧
      s8.tasks = [Task.selecting 50000000 (some 1), Task.spawned 50] ∧
      s8.run (restartTrace.drop 8) = some (.ok s) ∧
      s.app.gen = 3 ∧ s.app.playing = true ∧ s.app.stopChan = some 1 ∧
      s.app.chans = [true, false] ∧
      s.tasks = [Task.atLoop 50000000, Task.atLoop 50000000] :=
  ⟨_, _, _, rfl, rfl, rfl, rfl, rfl, rfl, rfl, rfl, rfl, rfl, rfl, rfl, rfl, rfl, rfl⟩

end GameOfLife
